import Mathlib

/-!
Verification development for the `DockerService` class of the CTFd Docker
plugin (`src/services/docker_service.py`).

The Docker daemon is modelled as an abstract environment: each runtime API
call consults an oracle that says whether the call succeeds.  Connectivity
(`is_connected`) is a boolean parameter.  Python dictionaries become
association lists (`List (String × String)`), Python `None` becomes
`Option`, Python exceptions become `Except` results, and Python floats
(only used for `cpu_limit`) become rationals, with `int()` modelled as
truncation toward zero.  Container ids handed out by the daemon are
modelled by the container names the service chooses.
-/

namespace CTFdDocker

/-- Dictionary update for one key, as Python `d[k] = v`: replaces the value
of an existing key, otherwise appends the binding. -/
def setKV (m : List (String × String)) (k v : String) : List (String × String) :=
  if m.any (fun p => p.1 = k) then
    m.map (fun p => if p.1 = k then (k, v) else p)
  else m ++ [(k, v)]

/-- Python truthiness of an optional string: `None` and the empty string
are falsy. -/
def pyTruthyStr : Option String → Bool
  | none => false
  | some s => s ≠ ""

/-- Python truthiness of an optional integer: `None` and `0` are falsy. -/
def pyTruthyPort : Option Nat → Bool
  | none => false
  | some p => p ≠ 0

/-- Python truthiness of an optional list/dict: `None` and the empty
collection are falsy. -/
def pyTruthyList {α : Type} : Option (List α) → Bool
  | none => false
  | some l => !l.isEmpty

/-- Python `int()` on a rational value: truncation toward zero. -/
def pyInt (q : ℚ) : ℤ := q.num.tdiv q.den

/-! ## `containers.run` arguments

`RunArgs` records exactly the keyword arguments the service passes to
`client.containers.run`.  A field of `Option` type is `none` when the
Python call site does not pass the keyword at all (so the docker SDK
default applies). -/

structure RunArgs where
  image : String
  name : Option String := none
  command : Option String := none
  detach : Bool := true
  auto_remove : Bool := true
  ports : Option (List (String × Option Nat)) := none
  environment : List (String × String) := []
  mem_limit : String := "512m"
  cpu_quota : ℤ := 0
  cpu_period : ℕ := 100000
  pids_limit : ℕ := 100
  labels : List (String × String) := []
  network : Option String := none
  network_mode : Option String := none
  networking_config : Option (String × List String) := none
  cap_drop : Option (List String) := none
  cap_add : Option (List String) := none
  security_opt : Option (List String) := none
deriving Repr, DecidableEq

/-! ## `create_container` (docker_service.py lines 62-196) -/

/-- Arguments of `DockerService.create_container`, with the Python default
values. -/
structure CCArgs where
  image : String
  internal_port : Option ℕ := none
  host_port : Option ℕ := none
  ports : Option (List (String × ℕ)) := none
  command : Option String := none
  environment : Option (List (String × String)) := none
  memory_limit : String := "512m"
  cpu_limit : ℚ := 1/2
  pids_limit : ℕ := 100
  labels : Option (List (String × String)) := none
  name : Option String := none
  network : Option String := none
  use_traefik : Bool := false
  network_mode : Option String := none
deriving Repr, DecidableEq

/-- Return value of `create_container`. -/
structure CCResult where
  container_id : String
  status : String
  port : Option ℕ
deriving Repr, DecidableEq

/-- Possible behaviours of the single `containers.run` call. -/
inductive RunOutcome where
  | ok (cid : String) (status : String)
  | imageNotFound
  | apiError (msg : String)
  | other (msg : String)
deriving Repr, DecidableEq

/-- Exceptions `create_container` can raise, mirroring the `except`
clauses of the Python function. -/
inductive CCErr where
  | notConnected
  | imageNotFound (image : String)
  | createFailed (msg : String)
  | other (msg : String)
deriving Repr, DecidableEq

/-- Python key string for a port mapping entry (PORT/tcp);
`internal_port=None` gives the literal key None/tcp. -/
def portKeyOf : Option ℕ → String
  | none => "None"
  | some n => toString n

/-- Label dictionary built by `create_container`: caller labels (or `{}`)
updated with the management and plugin labels. -/
def containerLabels (a : CCArgs) : List (String × String) :=
  setKV (setKV (a.labels.getD []) "ctfd.managed" "true") "ctfd.plugin" "containers"

/-- The `ports_config` value of `create_container`: `None` under Traefik,
else the multi-port dict if `ports` is truthy, else the legacy single
mapping. -/
def portsConfig (a : CCArgs) : Option (List (String × Option ℕ)) :=
  if a.use_traefik then none
  else if pyTruthyList a.ports then
    some ((a.ports.getD []).map (fun p => (p.1 ++ "/tcp", some p.2)))
  else some [(portKeyOf a.internal_port ++ "/tcp", a.host_port)]

/-- The `network` argument used in the non-shared-namespace branch:
`network if network else 'bridge'`. -/
def networkArg (a : CCArgs) : String :=
  if pyTruthyStr a.network then a.network.getD "bridge" else "bridge"

/-- Keyword arguments `create_container` passes to `containers.run`,
for each of the two branches on `network_mode` truthiness. -/
def ccRunArgs (a : CCArgs) : RunArgs :=
  if pyTruthyStr a.network_mode then
    { image := a.image
      name := a.name
      command := a.command
      detach := true
      auto_remove := true
      environment := a.environment.getD []
      mem_limit := a.memory_limit
      cpu_quota := pyInt (a.cpu_limit * 100000)
      cpu_period := 100000
      pids_limit := a.pids_limit
      labels := containerLabels a
      network_mode := a.network_mode
      cap_drop := some ["ALL"]
      cap_add := some ["CHOWN", "SETUID", "SETGID"]
      security_opt := some ["no-new-privileges"] }
  else
    { image := a.image
      name := a.name
      command := a.command
      detach := true
      auto_remove := true
      ports := portsConfig a
      environment := a.environment.getD []
      mem_limit := a.memory_limit
      cpu_quota := pyInt (a.cpu_limit * 100000)
      cpu_period := 100000
      pids_limit := a.pids_limit
      labels := containerLabels a
      network := some (networkArg a)
      cap_drop := some ["ALL"]
      cap_add := some ["CHOWN", "SETUID", "SETGID"]
      security_opt := some ["no-new-privileges"] }

/-- `DockerService.create_container`.  Returns the result or exception,
together with the `containers.run` argument record when the runtime call
was issued (`none` means no runtime creation call happened). -/
def create_container (connected : Bool) (a : CCArgs) (oc : RunOutcome) :
    Except CCErr CCResult × Option RunArgs :=
  if !connected then (.error .notConnected, none)
  else
    let ra := ccRunArgs a
    match oc with
    | .ok cid status =>
        (.ok { container_id := cid, status := status, port := a.host_port }, some ra)
    | .imageNotFound => (.error (.imageNotFound a.image), some ra)
    | .apiError m => (.error (.createFailed m), some ra)
    | .other m => (.error (.other m), some ra)

/-! ## `stop_container` (lines 198-223) -/

/-- Abstract behaviour of the `get`/`stop`/`remove` body of
`stop_container` for one container id: it either completes, raises
`NotFound` somewhere, or raises some other exception. -/
inductive StopOutcome where
  | ok
  | notFound
  | err
deriving Repr, DecidableEq

/-- `DockerService.stop_container`: `NotFound` is success, anything else
returns `False`; the function is total, so it never raises. -/
def stop_container (connected : Bool) (oc : StopOutcome) : Bool :=
  if !connected then false
  else
    match oc with
    | .ok => true
    | .notFound => true
    | .err => false

/-! ## `create_network` / `remove_network` (lines 331-392) -/

/-- Behaviour of the initial `networks.get(name)` existence check. -/
inductive NetGetOutcome where
  | found
  | notFound
  | err
deriving Repr, DecidableEq

/-- `DockerService.create_network`.  Returns the boolean result together
with a flag telling whether a `networks.create` call was issued. -/
def create_network (connected : Bool) (getOc : NetGetOutcome) (createOk : Bool) :
    Bool × Bool :=
  if !connected then (false, false)
  else
    match getOc with
    | .found => (true, false)
    | .notFound => if createOk then (true, true) else (false, true)
    | .err => (false, false)

/-- Behaviour of the `networks.get`/`network.remove` body of
`remove_network`: success, `NotFound`, failure because the network is
still in use, or any other failure. -/
inductive NetRmOutcome where
  | ok
  | notFound
  | inUse
  | err
deriving Repr, DecidableEq

/-- `DockerService.remove_network`: `NotFound` is success; every other
exception (the in-use case included) is logged and returns `False`. -/
def remove_network (connected : Bool) (oc : NetRmOutcome) : Bool :=
  if !connected then false
  else
    match oc with
    | .ok => true
    | .notFound => true
    | .inUse => false
    | .err => false

/-! ## `list_managed_containers` / `cleanup_expired_containers`
(lines 249-266 and 307-329) -/

/-- A container as seen by the daemon listing: an abstract id and its label
dictionary. -/
structure PContainer where
  id : String
  labels : List (String × String)
deriving Repr, DecidableEq

/-- Daemon-side filter `label=ctfd.managed=true`. -/
def isManaged (c : PContainer) : Bool :=
  c.labels.lookup "ctfd.managed" == some "true"

/-- `DockerService.list_managed_containers` over a daemon world. -/
def list_managed_containers (connected : Bool) (world : List PContainer) :
    List PContainer :=
  if !connected then [] else world.filter isManaged

/-- The guard `if instance_uuid and instance_uuid not in instance_uuids`
of the cleanup loop; note Python truthiness makes a missing or empty
`ctfd.instance_uuid` label fail the guard. -/
def cleanupGuard (instance_uuids : List String) (c : PContainer) : Bool :=
  match c.labels.lookup "ctfd.instance_uuid" with
  | none => false
  | some u => u ≠ "" && !(instance_uuids.contains u)

/-- `DockerService.cleanup_expired_containers`, returning the daemon world
that remains.  The loop runs over the managed listing; for each container
passing the guard it attempts `stop` + `remove` (exceptions swallowed), so
the container disappears exactly when its removal attempt succeeds, which
the oracle `removeOk` decides. -/
def cleanup_expired_containers (connected : Bool) (world : List PContainer)
    (instance_uuids : List String) (removeOk : PContainer → Bool) :
    List PContainer :=
  if !connected then world
  else
    (list_managed_containers connected world).foldl
      (fun w c => if cleanupGuard instance_uuids c && removeOk c then w.erase c else w)
      world

/-! ## `create_container_group` (lines 394-573)

The multi-step group creation is modelled as a trace of runtime calls.
Every runtime API call consumes one index of the oracle stream `ok`,
which says whether that call raises.  The function returns the Python
result (`Except`) together with the full call trace; residual daemon
state is recovered by replaying the trace. -/

/-- One entry of the `containers_config` list of `create_container_group`
(a dict in Python). -/
structure CDef where
  name : String
  image : String
  expose : Bool := false
  command : Option String := none
  environment : List (String × String) := []
deriving Repr, DecidableEq, Inhabited

/-- Arguments of `create_container_group`, with the Python defaults.
The Python parameter `name_prefix` is called `namePfx` here. -/
structure GCfg where
  containers_config : List CDef
  network_name : String
  entry_port : ℕ
  host_port : ℕ
  flag : String
  labels : Option (List (String × String)) := none
  namePfx : String := ""
  memory_limit : String := "512m"
  cpu_limit : ℚ := 1/2
  pids_limit : ℕ := 100
  tailnet_container : String := "tailscale-challenges"
deriving Repr, DecidableEq

/-- Return value of `create_container_group`. -/
structure GroupHandle where
  container_ids : List String
  entry_container_id : String
  network_id : String
  port : ℕ
deriving Repr, DecidableEq

/-- Exceptions `create_container_group` can raise: a failed runtime call
(tagged with its call index in the trace), the missing-expose validation
error, or a nonzero exit of the `tailscale serve` command. -/
inductive GErr where
  | notConnected
  | api (callIdx : ℕ)
  | noExpose
  | serveExit (code : ℕ)
deriving Repr, DecidableEq

/-- Runtime API calls issued by group creation and its compensation. -/
inductive RCall where
  | netCreate (name : String) (labels : List (String × String))
  | run (args : RunArgs)
  | getContainer (name : String)
  | netConnect (network : String) (container : String)
  | execServe (extPort : ℕ) (target : String) (targetPort : ℕ) (exitZero : Bool)
  | execServeOff (extPort : ℕ)
  | ctrStop (name : String)
  | ctrRemove (name : String)
  | netDisconnect (network : String) (container : String)
  | netRemove (name : String)
deriving Repr, DecidableEq

/-- Phase of a traced call: issued by the forward creation sequence or by
the compensation (`except`) block. -/
inductive Phase where
  | fwd
  | comp
deriving Repr, DecidableEq

/-- A traced runtime call together with whether the daemon let it
succeed. -/
structure Event where
  phase : Phase
  call : RCall
  ok : Bool
deriving Repr, DecidableEq

/-- Oracle abstracting the daemon during one `create_container_group`
invocation: `ok n` tells whether the n-th runtime call succeeds, and
`serveExit` is the exit code of the `tailscale serve` command. -/
structure Oracle where
  ok : ℕ → Bool
  serveExit : ℕ
deriving Inhabited

/-- Execution state of the Python function body: call counter, call
trace, the `created_containers` list (by container name), and the
`network` / `ts_connected` / `ts_serve_port` variables. -/
structure FSt where
  calls : ℕ
  trace : List Event
  created : List String
  netCreated : Bool
  tsConnected : Bool
  tsServePort : Option ℕ
deriving Repr, DecidableEq

/-- Issue one forward-phase runtime call. -/
def step (c : RCall) (o : Oracle) (s : FSt) : Bool × FSt :=
  let okv := o.ok s.calls
  (okv, { s with calls := s.calls + 1, trace := s.trace ++ [⟨Phase.fwd, c, okv⟩] })

/-- Issue one compensation-phase runtime call. -/
def compCall (c : RCall) (o : Oracle) (s : FSt) : Bool × FSt :=
  let okv := o.ok s.calls
  (okv, { s with calls := s.calls + 1, trace := s.trace ++ [⟨Phase.comp, c, okv⟩] })

/-- Labels of the private group network: management label and group
label, then overlaid with the caller labels. -/
def groupNetLabels (cfg : GCfg) : List (String × String) :=
  (cfg.labels.getD []).foldl (fun m p => setKV m p.1 p.2)
    [("ctfd.managed", "true"), ("ctfd.compose_group", cfg.namePfx)]

/-- Name given to a group container: the name prefix, a dash, and the declared name. -/
def groupCName (cfg : GCfg) (c : CDef) : String :=
  cfg.namePfx ++ "-" ++ c.name

/-- `containers.run` arguments for a non-entry group container
(lines 468-485).  Note: no `cap_drop`, `cap_add` or `security_opt` is
passed, and the labels are only the caller labels plus the compose role
and name. -/
def internalRunArgs (cfg : GCfg) (c : CDef) : RunArgs :=
  { image := c.image
    name := some (groupCName cfg c)
    command := c.command
    detach := true
    auto_remove := true
    environment := c.environment
    mem_limit := cfg.memory_limit
    cpu_quota := pyInt (cfg.cpu_limit * 100000)
    cpu_period := 100000
    pids_limit := cfg.pids_limit
    labels := setKV (setKV (cfg.labels.getD []) "ctfd.compose_role" "internal")
      "ctfd.compose_name" c.name
    networking_config := some (cfg.network_name, [c.name]) }

/-- `containers.run` arguments for the entry group container
(lines 489-517): same shape as the internal ones, with the flag and the
entry port injected into the environment. -/
def entryRunArgs (cfg : GCfg) (c : CDef) : RunArgs :=
  { image := c.image
    name := some (groupCName cfg c)
    command := c.command
    detach := true
    auto_remove := true
    environment := setKV (setKV c.environment "FLAG" cfg.flag) "PORT"
      (toString cfg.entry_port)
    mem_limit := cfg.memory_limit
    cpu_quota := pyInt (cfg.cpu_limit * 100000)
    cpu_period := 100000
    pids_limit := cfg.pids_limit
    labels := setKV (setKV (cfg.labels.getD []) "ctfd.compose_role" "entry")
      "ctfd.compose_name" c.name
    networking_config := some (cfg.network_name, [c.name]) }

/-- The loop of step 3: create every non-entry container, in list order,
appending each successfully created container to `created_containers`. -/
def runInternals (cfg : GCfg) (o : Oracle) (eidx : ℕ) :
    List (ℕ × CDef) → FSt → Except (GErr × FSt) FSt
  | [], s => .ok s
  | (i, c) :: rest, s =>
    if i = eidx then runInternals cfg o eidx rest s
    else
      match step (RCall.run (internalRunArgs cfg c)) o s with
      | (false, s1) => .error (.api s.calls, s1)
      | (true, s1) =>
          runInternals cfg o eidx rest
            { s1 with created := s1.created ++ [groupCName cfg c] }

/-- Forward phase of `create_container_group` (the `try` body,
lines 431-543).  On failure it returns the exception together with the
state at the moment it was raised; the caller runs the compensation. -/
def createGroupFwd (cfg : GCfg) (o : Oracle) :
    Except (GErr × FSt) (GroupHandle × FSt) :=
  let s0 : FSt :=
    { calls := 0, trace := [], created := [], netCreated := false,
      tsConnected := false, tsServePort := none }
  match step (RCall.netCreate cfg.network_name (groupNetLabels cfg)) o s0 with
  | (false, s1) => .error (.api 0, s1)
  | (true, s1) =>
    let s1 := { s1 with netCreated := true }
    match cfg.containers_config.findIdx? (fun c => c.expose) with
    | none => .error (.noExpose, s1)
    | some eidx =>
      match runInternals cfg o eidx cfg.containers_config.enum s1 with
      | .error p => .error p
      | .ok s2 =>
        let eDef := cfg.containers_config.getD eidx default
        let eName := groupCName cfg eDef
        match step (RCall.run (entryRunArgs cfg eDef)) o s2 with
        | (false, s3) => .error (.api s2.calls, s3)
        | (true, s3) =>
          let s3 := { s3 with created := s3.created ++ [eName] }
          match step (RCall.getContainer cfg.tailnet_container) o s3 with
          | (false, s4) => .error (.api s3.calls, s4)
          | (true, s4) =>
            match step (RCall.netConnect cfg.network_name cfg.tailnet_container) o s4 with
            | (false, s5) => .error (.api s4.calls, s5)
            | (true, s5) =>
              let s5 := { s5 with tsConnected := true }
              match step (RCall.execServe cfg.host_port eName cfg.entry_port
                  (o.serveExit == 0)) o s5 with
              | (false, s6) => .error (.api s5.calls, s6)
              | (true, s6) =>
                if o.serveExit = 0 then
                  let s6 := { s6 with tsServePort := some cfg.host_port }
                  .ok ({ container_ids := s6.created, entry_container_id := eName,
                         network_id := cfg.network_name, port := cfg.host_port }, s6)
                else .error (.serveExit o.serveExit, s6)

/-- Compensation step `if ts_serve_port:` (lines 548-553): look the relay
up and run `tailscale serve ... off`; errors swallowed. -/
def cleanupServe (cfg : GCfg) (o : Oracle) (s : FSt) : FSt :=
  if pyTruthyPort s.tsServePort then
    match compCall (RCall.getContainer cfg.tailnet_container) o s with
    | (false, s1) => s1
    | (true, s1) => (compCall (RCall.execServeOff (s.tsServePort.getD 0)) o s1).2
  else s

/-- Compensation step `if ts_connected and network:` (lines 555-560):
look the relay up and disconnect it from the group network; errors
swallowed. -/
def cleanupDisconnect (cfg : GCfg) (o : Oracle) (s : FSt) : FSt :=
  if s.tsConnected && s.netCreated then
    match compCall (RCall.getContainer cfg.tailnet_container) o s with
    | (false, s1) => s1
    | (true, s1) =>
        (compCall (RCall.netDisconnect cfg.network_name cfg.tailnet_container) o s1).2
  else s

/-- Compensation loop over `created_containers` (lines 562-567): per
container `stop` then `remove` in one `try`, so a failed stop skips that
remove of that container; errors swallowed, the loop continues. -/
def cleanupStops (o : Oracle) : List String → FSt → FSt
  | [], s => s
  | n :: rest, s =>
    match compCall (RCall.ctrStop n) o s with
    | (false, s1) => cleanupStops o rest s1
    | (true, s1) => cleanupStops o rest (compCall (RCall.ctrRemove n) o s1).2

/-- Compensation step `if network:` (lines 568-572): remove the group
network; errors swallowed. -/
def cleanupNet (cfg : GCfg) (o : Oracle) (s : FSt) : FSt :=
  if s.netCreated then (compCall (RCall.netRemove cfg.network_name) o s).2 else s

/-- The whole `except` block of `create_container_group`
(lines 545-573), before the final `raise`. -/
def cleanupGroup (cfg : GCfg) (o : Oracle) (s : FSt) : FSt :=
  cleanupNet cfg o (cleanupStops o s.created (cleanupDisconnect cfg o (cleanupServe cfg o s)))

/-- `DockerService.create_container_group`: runs the forward phase; on an
exception it runs the compensation block and re-raises the original
exception.  Returns the Python outcome and the full call trace. -/
def create_container_group (connected : Bool) (cfg : GCfg) (o : Oracle) :
    Except GErr GroupHandle × List Event :=
  if connected then
    match createGroupFwd cfg o with
    | .ok (h, s) => (.ok h, s.trace)
    | .error (e, s) => (.error e, (cleanupGroup cfg o s).trace)
  else (.error .notConnected, [])

/-! ## Replay: residual daemon state of a trace -/

/-- Daemon-side resources of one group after a sequence of calls. -/
structure Daemon where
  networkExists : Bool
  containers : List String
  relayAttached : Bool
  routeBound : Bool
deriving Repr, DecidableEq

/-- The state with no residual group resources. -/
def emptyDaemon : Daemon :=
  { networkExists := false, containers := [], relayAttached := false, routeBound := false }

/-- Effect of one traced call on the daemon state; failed calls have no
effect.  All containers here are created with `auto_remove=True`, so a
successful stop removes the container as well. -/
def applyEvent (d : Daemon) (e : Event) : Daemon :=
  if !e.ok then d
  else
    match e.call with
    | .netCreate _ _ => { d with networkExists := true }
    | .run a => { d with containers := d.containers ++ [a.name.getD ""] }
    | .getContainer _ => d
    | .netConnect _ _ => { d with relayAttached := true }
    | .execServe _ _ _ exitZero =>
        if exitZero then { d with routeBound := true } else d
    | .execServeOff _ => { d with routeBound := false }
    | .ctrStop n => { d with containers := d.containers.erase n }
    | .ctrRemove n => { d with containers := d.containers.erase n }
    | .netDisconnect _ _ => { d with relayAttached := false }
    | .netRemove _ => { d with networkExists := false }

/-- Residual daemon state after replaying a trace. -/
def residual (tr : List Event) : Daemon := tr.foldl applyEvent emptyDaemon

/-- Phase test as a boolean. -/
def isComp : Phase → Bool
  | .comp => true
  | .fwd => false

/-- Calls that change daemon state (container lookups do not). -/
def isEff : RCall → Bool
  | .getContainer _ => false
  | _ => true

/-- The state-changing compensation calls of a trace, in order. -/
def compCalls (tr : List Event) : List RCall :=
  (tr.filter (fun ev => isComp ev.phase && isEff ev.call)).map (fun ev => ev.call)

/-- The forward-phase events of a trace. -/
def fwdEvents (tr : List Event) : List Event :=
  tr.filter (fun ev => !isComp ev.phase)

/-- The compensation sequence prescribed by the specification, stated
from its words: unbind the tunnel route if bound, disconnect the relay if
joined, stop and remove every created container, remove the network if
created. -/
def specCompensation (d : Daemon) (netName relay : String) (extPort : ℕ) :
    List RCall :=
  (if d.routeBound then [RCall.execServeOff extPort] else [])
    ++ (if d.relayAttached then [RCall.netDisconnect netName relay] else [])
    ++ d.containers.flatMap (fun n => [RCall.ctrStop n, RCall.ctrRemove n])
    ++ (if d.networkExists then [RCall.netRemove netName] else [])

/-- The `RunArgs` of every `containers.run` call of a trace, in order. -/
def runArgsOf (tr : List Event) : List RunArgs :=
  tr.filterMap (fun ev =>
    match ev.call with
    | .run a => some a
    | _ => none)

/-- Invariant linking the Python-side variables of `create_container_group`
to the daemon state reached by its trace: every flag mirrors the replayed
residual state, the serve port is still unset, a joined relay implies an
existing network, and no compensation call has been issued yet. -/
def Inv (s : FSt) : Prop :=
  residual s.trace =
    { networkExists := s.netCreated, containers := s.created,
      relayAttached := s.tsConnected, routeBound := false } ∧
  s.tsServePort = none ∧
  (s.tsConnected = true → s.netCreated = true) ∧
  (∀ ev ∈ s.trace, ev.phase = Phase.fwd)

/-- Shape of the creation calls of a group trace: every `containers.run`
call uses either the internal or the entry argument template. -/
def GroupRunShape (cfg : GCfg) (ev : Event) : Prop :=
  ∀ a, ev.call = RCall.run a →
    ∃ c, a = internalRunArgs cfg c ∨ a = entryRunArgs cfg c

/-! ## `stop_container_group` (lines 575-634) -/

/-- Behaviour of the `tailscale serve ... off` section; every variant is
only logged. -/
inductive ServeOffOutcome where
  | ok
  | tsNotFound
  | err
deriving Repr, DecidableEq

/-- `DockerService.stop_container_group`.  `net = none` models
`network_id=None`; `serve = none` models a falsy `host_port`.  Per
container-id behaviour comes from `oc`. -/
def stop_container_group (connected : Bool) (cids : List String)
    (oc : String → StopOutcome) (net : Option NetRmOutcome)
    (serve : Option ServeOffOutcome) : Bool :=
  if !connected then false
  else
    let _ := serve
    let afterStops := cids.foldl
      (fun success cid =>
        match oc cid with
        | .ok => success
        | .notFound => success
        | .err => false)
      true
    match net with
    | none => afterStops
    | some .ok => afterStops
    | some .notFound => afterStops
    | some .inUse => false
    | some .err => false

/-! ## Concrete test fixtures -/

/-- Oracle under which every runtime call succeeds and `tailscale serve`
exits 0. -/
def allOkOracle : Oracle := ⟨fun _ => true, 0⟩

/-- Oracle under which exactly the runtime call with index `k` raises. -/
def failAtOracle (k : ℕ) : Oracle := ⟨fun n => n != k, 0⟩

/-- A two-container group request; the flags choose which containers are
marked `expose`. -/
def cfgPair (e1 e2 : Bool) : GCfg :=
  { containers_config := [⟨"web", "img1", e1, none, []⟩, ⟨"db", "img2", e2, none, []⟩]
    network_name := "net"
    entry_port := 80
    host_port := 30010
    flag := "F"
    labels := none
    namePfx := "p"
    memory_limit := "512m"
    cpu_limit := 1
    pids_limit := 100
    tailnet_container := "ts" }

/-! # Helper lemmas -/

theorem lookup_map_setKV_self (k v : String) :
    ∀ m : List (String × String), m.any (fun p => p.1 = k) = true →
      (m.map (fun p => if p.1 = k then (k, v) else p)).lookup k = some v := by
  intro m
  induction m with
  | nil => intro h; simp at h
  | cons p t ih =>
      intro h
      obtain ⟨pk, pv⟩ := p
      simp only [List.any_cons, Bool.or_eq_true, decide_eq_true_eq] at h
      by_cases hp : pk = k
      · subst hp
        simp
      · have hcond : ¬((pk, pv).1 = k) := hp
        simp only [List.map_cons, if_neg hcond, List.lookup_cons]
        have hbeq : (k == pk) = false := beq_eq_false_iff_ne.mpr (Ne.symm hp)
        rw [hbeq]
        apply ih
        rcases h with h | h
        · exact absurd h hp
        · exact h

theorem lookup_append_single_self (k v : String) :
    ∀ m : List (String × String), m.any (fun p => p.1 = k) = false →
      (m ++ [(k, v)]).lookup k = some v := by
  intro m
  induction m with
  | nil => simp
  | cons p t ih =>
      intro h
      obtain ⟨pk, pv⟩ := p
      simp only [List.any_cons, Bool.or_eq_true, decide_eq_true_eq] at h
      simp only [Bool.or_eq_false_iff, decide_eq_false_iff_not] at h
      simp only [List.cons_append, List.lookup_cons]
      have hbeq : (k == pk) = false := beq_eq_false_iff_ne.mpr (Ne.symm h.1)
      rw [hbeq]
      exact ih h.2

theorem lookup_setKV_self (m : List (String × String)) (k v : String) :
    (setKV m k v).lookup k = some v := by
  unfold setKV
  split
  · exact lookup_map_setKV_self k v m (by assumption)
  · rename_i h
    cases hb : (m.any fun p => p.1 = k) with
    | true => exact absurd hb h
    | false => exact lookup_append_single_self k v m hb

theorem lookup_map_setKV_ne (k v k' : String) (h : k' ≠ k) :
    ∀ m : List (String × String),
      (m.map (fun p => if p.1 = k then (k, v) else p)).lookup k' = m.lookup k' := by
  intro m
  induction m with
  | nil => simp
  | cons p t ih =>
      obtain ⟨pk, pv⟩ := p
      by_cases hp : pk = k
      · have hcond : ((pk, pv).1 = k) := hp
        simp only [List.map_cons, if_pos hcond, List.lookup_cons]
        have h1 : (k' == k) = false := beq_eq_false_iff_ne.mpr h
        have h2 : (k' == pk) = false := by rw [hp]; exact h1
        rw [h1, h2]
        exact ih
      · have hcond : ¬((pk, pv).1 = k) := hp
        simp only [List.map_cons, if_neg hcond, List.lookup_cons]
        cases hk : (k' == pk) with
        | true => rfl
        | false => exact ih

theorem lookup_append_single_ne (k v k' : String) (h : k' ≠ k) :
    ∀ m : List (String × String), (m ++ [(k, v)]).lookup k' = m.lookup k' := by
  intro m
  induction m with
  | nil =>
      simp only [List.nil_append, List.lookup_cons, List.lookup_nil]
      have h1 : (k' == k) = false := beq_eq_false_iff_ne.mpr h
      rw [h1]
  | cons p t ih =>
      obtain ⟨pk, pv⟩ := p
      simp only [List.cons_append, List.lookup_cons]
      cases hk : (k' == pk) with
      | true => rfl
      | false => exact ih

theorem lookup_setKV_ne (m : List (String × String)) (k v k' : String)
    (h : k' ≠ k) : (setKV m k v).lookup k' = m.lookup k' := by
  unfold setKV
  split
  · exact lookup_map_setKV_ne k v k' h m
  · exact lookup_append_single_ne k v k' h m

/-! # C10 — `create_container` returns `host_port` verbatim -/

/-- C10: on every successful `create_container` call, whatever the
networking mode, the `port` field of the returned record is exactly the
`host_port` argument (possibly `None`); it is never derived from the
bound ports. -/
theorem C10_port_passthrough (connected : Bool) (a : CCArgs) (oc : RunOutcome)
    (r : CCResult) (h : (create_container connected a oc).1 = .ok r) :
    r.port = a.host_port := by
  cases connected with
  | false => simp [create_container] at h
  | true =>
      cases oc with
      | ok cid status =>
          simp only [create_container, Bool.not_true, Bool.false_eq_true, if_false] at h
          simp only [Except.ok.injEq] at h
          rw [← h]
      | imageNotFound => simp [create_container] at h
      | apiError m => simp [create_container] at h
      | other m => simp [create_container] at h

/-- Witness for C10 at a concrete call. -/
theorem C10_port_passthrough_witness :
    (create_container true { image := "img", host_port := some 30001 }
        (RunOutcome.ok "cid" "running")).1 =
      Except.ok { container_id := "cid", status := "running", port := some 30001 } ∧
    ({ container_id := "cid", status := "running", port := some 30001 } : CCResult).port =
      some 30001 :=
  ⟨rfl,
    C10_port_passthrough true { image := "img", host_port := some 30001 }
      (RunOutcome.ok "cid" "running")
      { container_id := "cid", status := "running", port := some 30001 } rfl⟩

/-! # C2 — shared-namespace mode is not validated -/

/-- C2 counterexample: calling `create_container` with `network_mode` set
together with explicit `ports`, `internal_port`/`host_port` and a named
`network` raises no validation error; the runtime call is issued (second
component `isSome`) and the call succeeds. -/
theorem C2_no_validation_counterexample :
    (create_container true
        { image := "img", internal_port := some 80, host_port := some 30001,
          ports := some [("80", 30001), ("22", 30002)], network := some "mynet",
          network_mode := some "container:tailscale-challenges" }
        (RunOutcome.ok "cid" "running")).1 =
      Except.ok { container_id := "cid", status := "running", port := some 30001 } ∧
    ((create_container true
        { image := "img", internal_port := some 80, host_port := some 30001,
          ports := some [("80", 30001), ("22", 30002)], network := some "mynet",
          network_mode := some "container:tailscale-challenges" }
        (RunOutcome.ok "cid" "running")).2).isSome = true :=
  ⟨rfl, rfl⟩

/-- C2 amended: in shared-namespace mode (truthy `network_mode`) the
explicit port and network arguments are silently ignored rather than
rejected: for every outcome the runtime call is issued with
`network_mode` passed verbatim and with no `ports`, `network` or
networking-config keyword at all. -/
theorem C2_shared_namespace_amended (a : CCArgs) (nm : String) (oc : RunOutcome)
    (h : nm ≠ "") :
    ((create_container true { a with network_mode := some nm } oc).2).map
      (fun ra => (ra.network_mode, ra.ports, ra.network, ra.networking_config)) =
    some (some nm, none, none, none) := by
  have htr : pyTruthyStr (some nm) = true := by
    simp only [pyTruthyStr, ne_eq, decide_not, Bool.not_eq_eq_eq_not, Bool.not_true,
      decide_eq_false_iff_not]
    exact h
  cases oc <;>
    simp [create_container, ccRunArgs, htr]

/-- Witness for C2 amended at a concrete call. -/
theorem C2_shared_namespace_witness :
    ("container:tailscale-challenges" : String) ≠ "" ∧
    ((create_container true
        { image := "img", ports := some [("80", 30001)],
          network_mode := some "container:tailscale-challenges" } (RunOutcome.ok "c" "r")).2).map
      (fun ra => (ra.network_mode, ra.ports, ra.network, ra.networking_config)) =
    some (some "container:tailscale-challenges", none, none, none) :=
  ⟨by decide,
    C2_shared_namespace_amended
      { image := "img", ports := some [("80", 30001)],
        network_mode := some "container:tailscale-challenges" }
      "container:tailscale-challenges" (RunOutcome.ok "c" "r") (by decide)⟩

/-! # C5 — idempotent stop -/

/-- C5: stopping a nonexistent container id is a success in both paths:
`stop_container` returns `True` on "not found" and `False` on any other
failure (the function is total, so it never raises); and in
`stop_container_group` a "not found" outcome for an id contributes to the
aggregate exactly as a successful stop of that id does. -/
theorem C5_idempotent_stop :
    stop_container true StopOutcome.notFound = true ∧
    stop_container true StopOutcome.err = false ∧
    ∀ (cids : List String) (oc : String → StopOutcome) (net : Option NetRmOutcome)
      (serve : Option ServeOffOutcome) (cid : String),
      stop_container_group true cids (Function.update oc cid StopOutcome.notFound) net serve =
        stop_container_group true cids (Function.update oc cid StopOutcome.ok) net serve := by
  refine ⟨rfl, rfl, fun cids oc net serve cid => ?_⟩
  have hfold : ∀ (b : Bool),
      cids.foldl (fun success c =>
        match Function.update oc cid StopOutcome.notFound c with
        | .ok => success | .notFound => success | .err => false) b =
      cids.foldl (fun success c =>
        match Function.update oc cid StopOutcome.ok c with
        | .ok => success | .notFound => success | .err => false) b := by
    induction cids with
    | nil => intro b; rfl
    | cons c t ih =>
        intro b
        simp only [List.foldl_cons]
        by_cases hc : c = cid
        · subst hc
          simp only [Function.update_same]
          exact ih b
        · simp only [Function.update_noteq hc]
          cases oc c <;> exact ih _
  simp only [stop_container_group]
  cases net with
  | none => simp only [hfold true]
  | some n => cases n <;> simp only [hfold true]

/-! # C6 — group teardown aggregate -/

/-- C6 counterexample: with every container stop succeeding, an in-use
failure while removing the group network makes `stop_container_group`
return `False`, while with a successful removal it returns `True`; the
claim that the in-use case does not make the aggregate result false is
refuted. -/
theorem C6_teardown_counterexample :
    stop_container_group true ["c1"] (fun _ => StopOutcome.ok)
      (some NetRmOutcome.ok) none = true ∧
    stop_container_group true ["c1"] (fun _ => StopOutcome.ok)
      (some NetRmOutcome.inUse) none = false :=
  ⟨rfl, rfl⟩

/-- C6 amended: `stop_container_group` is total (never raises) and
returns an aggregate boolean; a failure to remove the network — the
in-use case included — is logged as a warning but still sets the
aggregate to `False`, while a "not found" network behaves as success and
the tailscale-serve section never affects the aggregate. -/
theorem C6_teardown_amended (cids : List String) (oc : String → StopOutcome)
    (net : Option NetRmOutcome) (s1 s2 : Option ServeOffOutcome) :
    stop_container_group true cids oc (some NetRmOutcome.inUse) s1 = false ∧
    stop_container_group true cids oc (some NetRmOutcome.notFound) s1 =
      stop_container_group true cids oc none s1 ∧
    stop_container_group true cids oc net s1 =
      stop_container_group true cids oc net s2 :=
  ⟨rfl, rfl, rfl⟩

/-! # C7 — network create/remove tolerance -/

/-- C7: `create_network` on an existing name returns `True` without
issuing any creation call; `remove_network` returns `True` on success and
on "not found", and returns `False` (without raising — the function is
total) when removal fails because the network is in use. -/
theorem C7_network_idempotent :
    (∀ createOk : Bool, create_network true NetGetOutcome.found createOk = (true, false)) ∧
    remove_network true NetRmOutcome.ok = true ∧
    remove_network true NetRmOutcome.notFound = true ∧
    remove_network true NetRmOutcome.inUse = false :=
  ⟨fun _ => rfl, rfl, rfl, rfl⟩

/-! # C8 — the reconciliation sweep -/

theorem sweep_fold_cons_out (g : PContainer → Bool) :
    ∀ (L w : List PContainer) (c : PContainer), c ∉ L →
      L.foldl (fun w x => if g x then w.erase x else w) (c :: w) =
        c :: L.foldl (fun w x => if g x then w.erase x else w) w := by
  intro L
  induction L with
  | nil => intro w c _; rfl
  | cons x t ih =>
      intro w c h
      obtain ⟨hcx, hct⟩ : c ≠ x ∧ c ∉ t := by
        constructor
        · intro he; exact h (he ▸ List.mem_cons_self x t)
        · intro hm; exact h (List.mem_cons_of_mem x hm)
      simp only [List.foldl_cons]
      by_cases hg : g x = true
      · rw [if_pos hg, if_pos hg, List.erase_cons_tail (by simpa using hcx)]
        exact ih (w.erase x) c hct
      · rw [if_neg hg, if_neg hg]
        exact ih w c hct

theorem sweep_fold_filter (g : PContainer → Bool) :
    ∀ w : List PContainer, w.Nodup →
      (w.filter isManaged).foldl (fun w x => if g x then w.erase x else w) w =
        w.filter (fun c => !(isManaged c && g c)) := by
  intro w
  induction w with
  | nil => intro _; rfl
  | cons c t ih =>
      intro hnd
      have hct : c ∉ t := (List.nodup_cons.mp hnd).1
      have hndt := (List.nodup_cons.mp hnd).2
      have hcf : c ∉ t.filter isManaged := fun hmem => hct (List.mem_of_mem_filter hmem)
      by_cases hm : isManaged c = true
      · rw [List.filter_cons_of_pos hm]
        simp only [List.foldl_cons]
        by_cases hg : g c = true
        · rw [if_pos hg, List.erase_cons_head,
            List.filter_cons_of_neg (by simp [hm, hg])]
          exact ih hndt
        · rw [if_neg hg, sweep_fold_cons_out g (t.filter isManaged) t c hcf,
            List.filter_cons_of_pos (by simp [hm, hg]), ih hndt]
      · rw [List.filter_cons_of_neg (by simpa using hm),
          sweep_fold_cons_out g (t.filter isManaged) t c hcf,
          List.filter_cons_of_pos (by simp [hm]), ih hndt]

/-- C8 counterexample: a container bearing the management label and a
correlation-id label whose (empty) value is certainly absent from the
valid set survives the sweep untouched — Python truthiness of the guard
`if instance_uuid and ...` skips empty-string ids, so the sweep does not
remove exactly the managed containers whose correlation id is outside the
valid set. -/
theorem C8_sweep_counterexample :
    cleanup_expired_containers true
        [⟨"c0", [("ctfd.managed", "true"), ("ctfd.instance_uuid", "")]⟩] []
        (fun _ => true) =
      [⟨"c0", [("ctfd.managed", "true"), ("ctfd.instance_uuid", "")]⟩] ∧
    isManaged ⟨"c0", [("ctfd.managed", "true"), ("ctfd.instance_uuid", "")]⟩ = true ∧
    (⟨"c0", [("ctfd.managed", "true"), ("ctfd.instance_uuid", "")]⟩ :
        PContainer).labels.lookup "ctfd.instance_uuid" = some "" ∧
    ([] : List String).contains "" = false :=
  ⟨rfl, rfl, rfl, rfl⟩

/-- C8 amended: when every removal attempt succeeds, the sweep removes
exactly the containers that bear the management label and carry a
non-empty correlation-id label whose value is not in
`instance_uuids`; every other container — unmanaged, managed without a
correlation-id label, managed with an empty one, or managed with a
correlation id in the valid set — is left untouched.  (Individual removal
errors are swallowed: a failed removal only leaves that container in
place.) -/
theorem C8_sweep_amended (world : List PContainer) (valid : List String)
    (hnd : world.Nodup) :
    cleanup_expired_containers true world valid (fun _ => true) =
      world.filter (fun c =>
        !(isManaged c &&
          match c.labels.lookup "ctfd.instance_uuid" with
          | none => false
          | some u => u ≠ "" && !(valid.contains u))) := by
  unfold cleanup_expired_containers list_managed_containers
  simp only [Bool.not_true, Bool.false_eq_true, if_false]
  have hfun : (fun (w : List PContainer) (c : PContainer) =>
      if cleanupGuard valid c && (fun _ => true) c then w.erase c else w) =
      (fun (w : List PContainer) (c : PContainer) =>
        if cleanupGuard valid c then w.erase c else w) := by
    funext w c
    rw [Bool.and_true]
  rw [hfun, sweep_fold_filter (cleanupGuard valid) world hnd]
  simp only [cleanupGuard]

/-- Witness for C8 amended on a concrete world: a managed container with
an unknown correlation id is removed, a managed container with a valid id
and an unmanaged container are kept. -/
theorem C8_sweep_amended_witness :
    ([⟨"c1", [("ctfd.managed", "true"), ("ctfd.instance_uuid", "gone")]⟩,
      ⟨"c2", [("ctfd.managed", "true"), ("ctfd.instance_uuid", "keep")]⟩,
      ⟨"c3", [("ctfd.instance_uuid", "gone")]⟩] : List PContainer).Nodup ∧
    cleanup_expired_containers true
        [⟨"c1", [("ctfd.managed", "true"), ("ctfd.instance_uuid", "gone")]⟩,
         ⟨"c2", [("ctfd.managed", "true"), ("ctfd.instance_uuid", "keep")]⟩,
         ⟨"c3", [("ctfd.instance_uuid", "gone")]⟩] ["keep"] (fun _ => true) =
      ([⟨"c1", [("ctfd.managed", "true"), ("ctfd.instance_uuid", "gone")]⟩,
        ⟨"c2", [("ctfd.managed", "true"), ("ctfd.instance_uuid", "keep")]⟩,
        ⟨"c3", [("ctfd.instance_uuid", "gone")]⟩] : List PContainer).filter (fun c =>
          !(isManaged c &&
            match c.labels.lookup "ctfd.instance_uuid" with
            | none => false
            | some u => u ≠ "" && !((["keep"] : List String).contains u))) :=
  ⟨by decide,
    C8_sweep_amended
      [⟨"c1", [("ctfd.managed", "true"), ("ctfd.instance_uuid", "gone")]⟩,
       ⟨"c2", [("ctfd.managed", "true"), ("ctfd.instance_uuid", "keep")]⟩,
       ⟨"c3", [("ctfd.instance_uuid", "gone")]⟩] ["keep"] (by decide)⟩

/-! # Group creation: trace replay helpers -/

theorem residual_append (t1 t2 : List Event) :
    residual (t1 ++ t2) = t2.foldl applyEvent (residual t1) := by
  simp [residual, List.foldl_append]

theorem residual_snoc (tr : List Event) (ev : Event) :
    residual (tr ++ [ev]) = applyEvent (residual tr) ev := by
  simp [residual, List.foldl_append]

theorem applyEvent_notok (d : Daemon) (ev : Event) (h : ev.ok = false) :
    applyEvent d ev = d := by
  simp [applyEvent, h]

/-! # Forward phase: invariants -/

theorem runInternals_spec (cfg : GCfg) (o : Oracle) (eidx : ℕ) :
    ∀ (L : List (ℕ × CDef)) (s : FSt), Inv s →
      (∀ ev ∈ s.trace, GroupRunShape cfg ev) →
      (∀ s', runInternals cfg o eidx L s = .ok s' →
        Inv s' ∧ (∀ ev ∈ s'.trace, GroupRunShape cfg ev) ∧
        s'.netCreated = s.netCreated ∧ s'.tsConnected = s.tsConnected ∧
        s'.tsServePort = s.tsServePort) ∧
      (∀ e s', runInternals cfg o eidx L s = .error (e, s') →
        Inv s' ∧ (∀ ev ∈ s'.trace, GroupRunShape cfg ev) ∧
        s'.netCreated = s.netCreated ∧ s'.tsConnected = s.tsConnected ∧
        s'.tsServePort = s.tsServePort) := by
  intro L
  induction L with
  | nil =>
      intro s hInv hGR
      constructor
      · intro s' h
        simp only [runInternals] at h
        cases h
        exact ⟨hInv, hGR, rfl, rfl, rfl⟩
      · intro e s' h
        simp only [runInternals] at h
        cases h
  | cons p rest ih =>
      obtain ⟨i, c⟩ := p
      intro s hInv hGR
      by_cases hie : i = eidx
      · simp only [runInternals, if_pos hie]
        exact ih s hInv hGR
      · obtain ⟨hres, hport, himp, hfwd⟩ := hInv
        cases hok : o.ok s.calls with
        | false =>
            have hred : runInternals cfg o eidx ((i, c) :: rest) s =
                .error (.api s.calls,
                  { s with
                    calls := s.calls + 1
                    trace := s.trace ++
                      [⟨Phase.fwd, RCall.run (internalRunArgs cfg c), false⟩] }) := by
              simp only [runInternals, if_neg hie, step, hok]
            constructor
            · intro s' h
              rw [hred] at h
              cases h
            · intro e s' h
              rw [hred] at h
              injection h with h1
              injection h1 with he hs
              subst hs
              refine ⟨⟨?_, hport, himp, ?_⟩, ?_, rfl, rfl, rfl⟩
              · rw [residual_snoc, applyEvent_notok _ _ rfl]
                exact hres
              · intro ev hev
                rcases List.mem_append.mp hev with hev | hev
                · exact hfwd ev hev
                · rcases List.mem_singleton.mp hev with rfl
                  rfl
              · intro ev hev
                rcases List.mem_append.mp hev with hev | hev
                · exact hGR ev hev
                · rcases List.mem_singleton.mp hev with rfl
                  intro a ha
                  injection ha with ha
                  exact ⟨c, Or.inl ha.symm⟩
        | true =>
            have hred : runInternals cfg o eidx ((i, c) :: rest) s =
                runInternals cfg o eidx rest
                  { calls := s.calls + 1
                    trace := s.trace ++
                      [⟨Phase.fwd, RCall.run (internalRunArgs cfg c), true⟩]
                    created := s.created ++ [groupCName cfg c]
                    netCreated := s.netCreated
                    tsConnected := s.tsConnected
                    tsServePort := s.tsServePort } := by
              simp only [runInternals, if_neg hie, step, hok]
            have hInv2 : Inv
                { calls := s.calls + 1
                  trace := s.trace ++
                    [⟨Phase.fwd, RCall.run (internalRunArgs cfg c), true⟩]
                  created := s.created ++ [groupCName cfg c]
                  netCreated := s.netCreated
                  tsConnected := s.tsConnected
                  tsServePort := s.tsServePort } := by
              refine ⟨?_, hport, himp, ?_⟩
              · rw [residual_snoc, hres]
                simp [applyEvent, internalRunArgs]
              · intro ev hev
                rcases List.mem_append.mp hev with hev | hev
                · exact hfwd ev hev
                · rcases List.mem_singleton.mp hev with rfl
                  rfl
            have hGR2 : ∀ ev ∈
                (s.trace ++ [⟨Phase.fwd, RCall.run (internalRunArgs cfg c), true⟩]),
                GroupRunShape cfg ev := by
              intro ev hev
              rcases List.mem_append.mp hev with hev | hev
              · exact hGR ev hev
              · rcases List.mem_singleton.mp hev with rfl
                intro a ha
                injection ha with ha
                exact ⟨c, Or.inl ha.symm⟩
            have := ih _ hInv2 hGR2
            rw [hred]
            constructor
            · intro s' h
              obtain ⟨h1, h2, h3, h4, h5⟩ := this.1 s' h
              exact ⟨h1, h2, h3, h4, h5⟩
            · intro e s' h
              obtain ⟨h1, h2, h3, h4, h5⟩ := this.2 e s' h
              exact ⟨h1, h2, h3, h4, h5⟩

theorem forall_mem_snoc {α : Type} {p : α → Prop} {l : List α} {a : α}
    (hl : ∀ x ∈ l, p x) (ha : p a) : ∀ x ∈ l ++ [a], p x := by
  intro x hx
  rcases List.mem_append.mp hx with h | h
  · exact hl x h
  · rcases List.mem_singleton.mp h with rfl
    exact ha

theorem GroupRunShape_of_ne (cfg : GCfg) (ph : Phase) (okv : Bool) (c : RCall)
    (h : ∀ a, c ≠ RCall.run a) : GroupRunShape cfg ⟨ph, c, okv⟩ := by
  intro a ha
  exact absurd ha (h a)

theorem Inv_extend (s : FSt) (hInv : Inv s) (ev : Event)
    (hph : ev.phase = Phase.fwd)
    (heff : applyEvent (residual s.trace) ev = residual s.trace) :
    Inv { s with
      calls := s.calls + 1
      trace := s.trace ++ [ev] } := by
  obtain ⟨hres, hport, himp, hfwd⟩ := hInv
  refine ⟨?_, hport, himp, forall_mem_snoc hfwd hph⟩
  show residual (s.trace ++ [ev]) = _
  rw [residual_snoc, heff, hres]

theorem Inv_extend_run (s : FSt) (hInv : Inv s) (a : RunArgs) (n : String)
    (hname : a.name = some n) :
    Inv { s with
      calls := s.calls + 1
      trace := s.trace ++ [⟨Phase.fwd, RCall.run a, true⟩]
      created := s.created ++ [n] } := by
  obtain ⟨hres, hport, himp, hfwd⟩ := hInv
  refine ⟨?_, hport, himp, forall_mem_snoc hfwd rfl⟩
  show residual (s.trace ++ [⟨Phase.fwd, RCall.run a, true⟩]) = _
  rw [residual_snoc, hres]
  simp [applyEvent, hname]

theorem Inv_extend_connect (s : FSt) (hInv : Inv s) (hnet : s.netCreated = true)
    (net ctr : String) :
    Inv { s with
      calls := s.calls + 1
      trace := s.trace ++ [⟨Phase.fwd, RCall.netConnect net ctr, true⟩]
      tsConnected := true } := by
  obtain ⟨hres, hport, himp, hfwd⟩ := hInv
  refine ⟨?_, hport, fun _ => hnet, forall_mem_snoc hfwd rfl⟩
  show residual (s.trace ++ [⟨Phase.fwd, RCall.netConnect net ctr, true⟩]) = _
  rw [residual_snoc, hres]
  simp [applyEvent]

theorem createGroupFwd_cases (cfg : GCfg) (o : Oracle) :
    (∃ hd s, createGroupFwd cfg o = .ok (hd, s) ∧
      (∀ ev ∈ s.trace, GroupRunShape cfg ev) ∧
      ∃ i, cfg.containers_config.findIdx? (fun c => c.expose) = some i ∧
        hd.entry_container_id = groupCName cfg (cfg.containers_config.getD i default)) ∨
    (∃ e s, createGroupFwd cfg o = .error (e, s) ∧ Inv s ∧
      (∀ ev ∈ s.trace, GroupRunShape cfg ev)) := by
  cases hok0 : o.ok 0 with
  | false =>
      right
      refine ⟨GErr.api 0,
        { calls := 1
          trace := [⟨Phase.fwd, RCall.netCreate cfg.network_name (groupNetLabels cfg), false⟩]
          created := []
          netCreated := false
          tsConnected := false
          tsServePort := none }, ?_, ?_, ?_⟩
      · unfold createGroupFwd
        simp only [step, Nat.zero_add, List.nil_append, hok0]
      · refine ⟨rfl, rfl, fun h => absurd h Bool.false_ne_true, ?_⟩
        intro ev hev
        rcases List.mem_singleton.mp hev with rfl
        rfl
      · intro ev hev
        rcases List.mem_singleton.mp hev with rfl
        exact GroupRunShape_of_ne cfg _ _ _ (fun a h => RCall.noConfusion h)
  | true =>
      have hInv1 : Inv
          { calls := 1
            trace := [⟨Phase.fwd, RCall.netCreate cfg.network_name (groupNetLabels cfg), true⟩]
            created := []
            netCreated := true
            tsConnected := false
            tsServePort := none } := by
        refine ⟨rfl, rfl, fun _ => rfl, ?_⟩
        intro ev hev
        rcases List.mem_singleton.mp hev with rfl
        rfl
      have hGR1 : ∀ ev ∈
          [(⟨Phase.fwd, RCall.netCreate cfg.network_name (groupNetLabels cfg), true⟩ : Event)],
          GroupRunShape cfg ev := by
        intro ev hev
        rcases List.mem_singleton.mp hev with rfl
        exact GroupRunShape_of_ne cfg _ _ _ (fun a h => RCall.noConfusion h)
      cases hfi : cfg.containers_config.findIdx? (fun c => c.expose) with
      | none =>
          right
          refine ⟨GErr.noExpose,
            { calls := 1
              trace := [⟨Phase.fwd,
                RCall.netCreate cfg.network_name (groupNetLabels cfg), true⟩]
              created := []
              netCreated := true
              tsConnected := false
              tsServePort := none }, ?_, hInv1, hGR1⟩
          unfold createGroupFwd
          simp only [step, Nat.zero_add, List.nil_append, hok0, hfi]
      | some eidx =>
          cases hri : runInternals cfg o eidx cfg.containers_config.enum
              { calls := 1
                trace := [⟨Phase.fwd,
                  RCall.netCreate cfg.network_name (groupNetLabels cfg), true⟩]
                created := []
                netCreated := true
                tsConnected := false
                tsServePort := none } with
          | error p =>
              obtain ⟨e, s2⟩ := p
              have hspec := (runInternals_spec cfg o eidx cfg.containers_config.enum _
                hInv1 hGR1).2 e s2 hri
              right
              refine ⟨e, s2, ?_, hspec.1, hspec.2.1⟩
              unfold createGroupFwd
              simp only [step, Nat.zero_add, List.nil_append, hok0, hfi, hri]
          | ok s2 =>
              have hspec := (runInternals_spec cfg o eidx cfg.containers_config.enum _
                hInv1 hGR1).1 s2 hri
              obtain ⟨hInv2, hGR2, hnet2, hts2, hport2⟩ := hspec
              have hnet2' : s2.netCreated = true := hnet2
              cases hokE : o.ok s2.calls with
              | false =>
                  right
                  refine ⟨GErr.api s2.calls,
                    { s2 with
                      calls := s2.calls + 1
                      trace := s2.trace ++ [⟨Phase.fwd, RCall.run (entryRunArgs cfg
                        (cfg.containers_config.getD eidx default)), false⟩] }, ?_, ?_, ?_⟩
                  · unfold createGroupFwd
                    simp only [step, Nat.zero_add, List.nil_append, hok0, hfi, hri, hokE]
                  · exact Inv_extend s2 hInv2 _ rfl (applyEvent_notok _ _ rfl)
                  · exact forall_mem_snoc hGR2 (by
                      intro a ha
                      injection ha with ha
                      exact ⟨cfg.containers_config.getD eidx default, Or.inr ha.symm⟩)
              | true =>
                  have hInv3 : Inv
                      { s2 with
                        calls := s2.calls + 1
                        trace := s2.trace ++ [⟨Phase.fwd, RCall.run (entryRunArgs cfg
                          (cfg.containers_config.getD eidx default)), true⟩]
                        created := s2.created ++
                          [groupCName cfg (cfg.containers_config.getD eidx default)] } :=
                    Inv_extend_run s2 hInv2 _ _ rfl
                  have hGR3 : ∀ ev ∈ (s2.trace ++ [⟨Phase.fwd, RCall.run (entryRunArgs cfg
                      (cfg.containers_config.getD eidx default)), true⟩]),
                      GroupRunShape cfg ev :=
                    forall_mem_snoc hGR2 (by
                      intro a ha
                      injection ha with ha
                      exact ⟨cfg.containers_config.getD eidx default, Or.inr ha.symm⟩)
                  cases hokG : o.ok (s2.calls + 1) with
                  | false =>
                      right
                      refine ⟨GErr.api (s2.calls + 1),
                        { s2 with
                          calls := s2.calls + 1 + 1
                          trace := (s2.trace ++ [⟨Phase.fwd, RCall.run (entryRunArgs cfg
                              (cfg.containers_config.getD eidx default)), true⟩]) ++
                            [⟨Phase.fwd, RCall.getContainer cfg.tailnet_container, false⟩]
                          created := s2.created ++
                            [groupCName cfg (cfg.containers_config.getD eidx default)] },
                        ?_, ?_, ?_⟩
                      · unfold createGroupFwd
                        simp only [step, Nat.zero_add, List.nil_append, hok0, hfi, hri, hokE, hokG]
                      · exact Inv_extend _ hInv3 _ rfl (applyEvent_notok _ _ rfl)
                      · exact forall_mem_snoc hGR3
                          (GroupRunShape_of_ne cfg _ _ _ (fun a h => RCall.noConfusion h))
                  | true =>
                      have hInv4 : Inv
                          { s2 with
                            calls := s2.calls + 1 + 1
                            trace := (s2.trace ++ [⟨Phase.fwd, RCall.run (entryRunArgs cfg
                                (cfg.containers_config.getD eidx default)), true⟩]) ++
                              [⟨Phase.fwd, RCall.getContainer cfg.tailnet_container, true⟩]
                            created := s2.created ++
                              [groupCName cfg (cfg.containers_config.getD eidx default)] } :=
                        Inv_extend _ hInv3 _ rfl rfl
                      have hGR4 := forall_mem_snoc hGR3
                        (GroupRunShape_of_ne cfg Phase.fwd true
                          (RCall.getContainer cfg.tailnet_container)
                          (fun a h => RCall.noConfusion h))
                      cases hokC : o.ok (s2.calls + 1 + 1) with
                      | false =>
                          right
                          refine ⟨GErr.api (s2.calls + 1 + 1),
                            { s2 with
                              calls := s2.calls + 1 + 1 + 1
                              trace := ((s2.trace ++ [⟨Phase.fwd, RCall.run (entryRunArgs cfg
                                    (cfg.containers_config.getD eidx default)), true⟩]) ++
                                  [⟨Phase.fwd, RCall.getContainer cfg.tailnet_container, true⟩]) ++
                                [⟨Phase.fwd, RCall.netConnect cfg.network_name
                                  cfg.tailnet_container, false⟩]
                              created := s2.created ++
                                [groupCName cfg (cfg.containers_config.getD eidx default)] },
                            ?_, ?_, ?_⟩
                          · unfold createGroupFwd
                            simp only [step, Nat.zero_add, List.nil_append, hok0, hfi, hri, hokE, hokG, hokC]
                          · exact Inv_extend _ hInv4 _ rfl (applyEvent_notok _ _ rfl)
                          · exact forall_mem_snoc hGR4
                              (GroupRunShape_of_ne cfg _ _ _ (fun a h => RCall.noConfusion h))
                      | true =>
                          have hInv5 : Inv
                              { s2 with
                                calls := s2.calls + 1 + 1 + 1
                                trace := ((s2.trace ++ [⟨Phase.fwd, RCall.run (entryRunArgs cfg
                                      (cfg.containers_config.getD eidx default)), true⟩]) ++
                                    [⟨Phase.fwd, RCall.getContainer cfg.tailnet_container,
                                      true⟩]) ++
                                  [⟨Phase.fwd, RCall.netConnect cfg.network_name
                                    cfg.tailnet_container, true⟩]
                                created := s2.created ++
                                  [groupCName cfg (cfg.containers_config.getD eidx default)]
                                tsConnected := true } :=
                            Inv_extend_connect _ hInv4 hnet2' _ _
                          have hGR5 := forall_mem_snoc hGR4
                            (GroupRunShape_of_ne cfg Phase.fwd true
                              (RCall.netConnect cfg.network_name cfg.tailnet_container)
                              (fun a h => RCall.noConfusion h))
                          cases hokS : o.ok (s2.calls + 1 + 1 + 1) with
                          | false =>
                              right
                              refine ⟨GErr.api (s2.calls + 1 + 1 + 1),
                                { s2 with
                                  calls := s2.calls + 1 + 1 + 1 + 1
                                  trace := (((s2.trace ++ [⟨Phase.fwd,
                                        RCall.run (entryRunArgs cfg
                                          (cfg.containers_config.getD eidx default)), true⟩]) ++
                                      [⟨Phase.fwd, RCall.getContainer cfg.tailnet_container,
                                        true⟩]) ++
                                    [⟨Phase.fwd, RCall.netConnect cfg.network_name
                                      cfg.tailnet_container, true⟩]) ++
                                    [⟨Phase.fwd, RCall.execServe cfg.host_port
                                      (groupCName cfg (cfg.containers_config.getD eidx default))
                                      cfg.entry_port (o.serveExit == 0), false⟩]
                                  created := s2.created ++
                                    [groupCName cfg (cfg.containers_config.getD eidx default)]
                                  tsConnected := true }, ?_, ?_, ?_⟩
                              · unfold createGroupFwd
                                simp only [step, Nat.zero_add, List.nil_append, hok0, hfi, hri, hokE, hokG, hokC, hokS]
                              · exact Inv_extend _ hInv5 _ rfl (applyEvent_notok _ _ rfl)
                              · exact forall_mem_snoc hGR5
                                  (GroupRunShape_of_ne cfg _ _ _ (fun a h => RCall.noConfusion h))
                          | true =>
                              by_cases hse : o.serveExit = 0
                              · left
                                refine ⟨{ container_ids := s2.created ++ [groupCName cfg (cfg.containers_config.getD eidx default)]
                                          entry_container_id := groupCName cfg (cfg.containers_config.getD eidx default)
                                          network_id := cfg.network_name
                                          port := cfg.host_port },
                                  { s2 with
                                    calls := s2.calls + 1 + 1 + 1 + 1
                                    trace := (((s2.trace ++ [⟨Phase.fwd, RCall.run (entryRunArgs cfg (cfg.containers_config.getD eidx default)), true⟩]) ++ [⟨Phase.fwd, RCall.getContainer cfg.tailnet_container, true⟩]) ++ [⟨Phase.fwd, RCall.netConnect cfg.network_name cfg.tailnet_container, true⟩]) ++ [⟨Phase.fwd, RCall.execServe cfg.host_port (groupCName cfg (cfg.containers_config.getD eidx default)) cfg.entry_port (o.serveExit == 0), true⟩]
                                    created := s2.created ++ [groupCName cfg (cfg.containers_config.getD eidx default)]
                                    tsConnected := true
                                    tsServePort := some cfg.host_port },
                                  ?_, ?_, eidx, rfl, rfl⟩
                                · unfold createGroupFwd
                                  simp only [step, Nat.zero_add, List.nil_append, hok0, hfi,
                                    hri, hokE, hokG, hokC, hokS, if_pos hse]
                                · exact forall_mem_snoc hGR5
                                    (GroupRunShape_of_ne cfg _ _ _
                                      (fun a h => RCall.noConfusion h))
                              · right
                                have hbe : (o.serveExit == 0) = false := by
                                  exact beq_eq_false_iff_ne.mpr hse
                                refine ⟨GErr.serveExit o.serveExit,
                                  { s2 with
                                    calls := s2.calls + 1 + 1 + 1 + 1
                                    trace := (((s2.trace ++ [⟨Phase.fwd,
                                          RCall.run (entryRunArgs cfg
                                            (cfg.containers_config.getD eidx default)),
                                          true⟩]) ++
                                        [⟨Phase.fwd, RCall.getContainer cfg.tailnet_container,
                                          true⟩]) ++
                                      [⟨Phase.fwd, RCall.netConnect cfg.network_name
                                        cfg.tailnet_container, true⟩]) ++
                                      [⟨Phase.fwd, RCall.execServe cfg.host_port
                                        (groupCName cfg
                                          (cfg.containers_config.getD eidx default))
                                        cfg.entry_port (o.serveExit == 0), true⟩]
                                    created := s2.created ++
                                      [groupCName cfg (cfg.containers_config.getD eidx default)]
                                    tsConnected := true }, ?_, ?_, ?_⟩
                                · unfold createGroupFwd
                                  simp only [step, Nat.zero_add, List.nil_append, hok0, hfi, hri, hokE, hokG, hokC, hokS,
                                    if_neg hse]
                                · refine Inv_extend _ hInv5 _ rfl ?_
                                  show applyEvent _ _ = _
                                  rw [applyEvent]
                                  simp [hbe]
                                · exact forall_mem_snoc hGR5
                                    (GroupRunShape_of_ne cfg _ _ _
                                      (fun a h => RCall.noConfusion h))

theorem createGroupFwd_error_spec (cfg : GCfg) (o : Oracle) (e : GErr) (s : FSt)
    (h : createGroupFwd cfg o = .error (e, s)) :
    Inv s ∧ (∀ ev ∈ s.trace, GroupRunShape cfg ev) := by
  rcases createGroupFwd_cases cfg o with ⟨hd, s', heq, _, _⟩ | ⟨e', s', heq, hInv, hGR⟩
  · rw [heq] at h
    cases h
  · rw [heq] at h
    injection h with h1
    cases h1
    exact ⟨hInv, hGR⟩

theorem createGroupFwd_ok_spec (cfg : GCfg) (o : Oracle) (hd : GroupHandle) (s : FSt)
    (h : createGroupFwd cfg o = .ok (hd, s)) :
    (∀ ev ∈ s.trace, GroupRunShape cfg ev) ∧
    ∃ i, cfg.containers_config.findIdx? (fun c => c.expose) = some i ∧
      hd.entry_container_id = groupCName cfg (cfg.containers_config.getD i default) := by
  rcases createGroupFwd_cases cfg o with ⟨hd', s', heq, hGR, hshape⟩ | ⟨e', s', heq, _, _⟩
  · rw [heq] at h
    injection h with h1
    cases h1
    exact ⟨hGR, hshape⟩
  · rw [heq] at h
    cases h

/-! # Compensation block: trace decomposition and effect -/

theorem runArgsOf_append (t1 t2 : List Event) :
    runArgsOf (t1 ++ t2) = runArgsOf t1 ++ runArgsOf t2 := by
  simp [runArgsOf, List.filterMap_append]

theorem runArgsOf_eq_nil (Δ : List Event)
    (h : ∀ ev ∈ Δ, ∀ a, ev.call ≠ RCall.run a) : runArgsOf Δ = [] := by
  induction Δ with
  | nil => rfl
  | cons ev t ih =>
      have hev := h ev (List.mem_cons_self ev t)
      have ht : ∀ e ∈ t, ∀ a, e.call ≠ RCall.run a :=
        fun e he => h e (List.mem_cons_of_mem ev he)
      simp only [runArgsOf, List.filterMap_cons]
      cases hc : ev.call with
      | run a => exact absurd hc (hev a)
      | netCreate n l => exact ih ht
      | getContainer n => exact ih ht
      | netConnect n c => exact ih ht
      | execServe a b c d => exact ih ht
      | execServeOff a => exact ih ht
      | ctrStop n => exact ih ht
      | ctrRemove n => exact ih ht
      | netDisconnect n c => exact ih ht
      | netRemove n => exact ih ht

theorem fwdEvents_append (t1 t2 : List Event) :
    fwdEvents (t1 ++ t2) = fwdEvents t1 ++ fwdEvents t2 := by
  simp [fwdEvents, List.filter_append]

theorem compCalls_append (t1 t2 : List Event) :
    compCalls (t1 ++ t2) = compCalls t1 ++ compCalls t2 := by
  simp [compCalls, List.filter_append]

theorem fwdEvents_of_allfwd (tr : List Event)
    (h : ∀ ev ∈ tr, ev.phase = Phase.fwd) : fwdEvents tr = tr := by
  apply List.filter_eq_self.mpr
  intro ev hev
  rw [h ev hev]
  rfl

theorem compCalls_of_allfwd (tr : List Event)
    (h : ∀ ev ∈ tr, ev.phase = Phase.fwd) : compCalls tr = [] := by
  unfold compCalls
  rw [List.filter_eq_nil_iff.mpr]
  · rfl
  · intro ev hev
    rw [h ev hev]
    simp [isComp]

theorem fwdEvents_of_allcomp (Δ : List Event)
    (h : ∀ ev ∈ Δ, isComp ev.phase = true) : fwdEvents Δ = [] := by
  unfold fwdEvents
  rw [List.filter_eq_nil_iff.mpr]
  intro ev hev
  simp [h ev hev]

theorem doubleErase_eq_nil : ∀ (L acc : List String),
    (∀ m, List.count m acc ≤ 2 * List.count m L) →
    L.foldl (fun cs n => (cs.erase n).erase n) acc = [] := by
  intro L
  induction L with
  | nil =>
      intro acc h
      rcases acc with _ | ⟨x, t⟩
      · rfl
      · exfalso
        have hx := h x
        simp only [List.count_nil, Nat.mul_zero, Nat.le_zero] at hx
        have : x ∉ x :: t := List.count_eq_zero.mp hx
        exact this (List.mem_cons_self x t)
  | cons n rest ih =>
      intro acc h
      simp only [List.foldl_cons]
      apply ih
      intro m
      by_cases hm : m = n
      · subst hm
        rw [List.count_erase_self, List.count_erase_self]
        have hc := h m
        rw [List.count_cons] at hc
        have hb : (m == m) = true := beq_self_eq_true m
        rw [hb] at hc
        simp only [if_true] at hc
        omega
      · rw [List.count_erase_of_ne hm, List.count_erase_of_ne hm]
        have hc := h m
        rw [List.count_cons] at hc
        have hb : (n == m) = false := beq_eq_false_iff_ne.mpr (Ne.symm hm)
        rw [hb] at hc
        simpa using hc

theorem doubleErase_self (l : List String) :
    l.foldl (fun cs n => (cs.erase n).erase n) l = [] := by
  apply doubleErase_eq_nil
  intro m
  omega

theorem cleanupServe_of_port_none (cfg : GCfg) (o : Oracle) (s : FSt)
    (h : s.tsServePort = none) : cleanupServe cfg o s = s := by
  simp [cleanupServe, h, pyTruthyPort]

theorem cleanupDisconnect_spec (cfg : GCfg) (o : Oracle) (s : FSt) :
    ∃ Δ, (cleanupDisconnect cfg o s).trace = s.trace ++ Δ ∧
      (∀ ev ∈ Δ, isComp ev.phase = true ∧ ∀ a, ev.call ≠ RCall.run a) ∧
      (cleanupDisconnect cfg o s).created = s.created ∧
      (cleanupDisconnect cfg o s).netCreated = s.netCreated ∧
      ((∀ ev ∈ Δ, ev.ok = true) →
        (∀ d : Daemon, Δ.foldl applyEvent d =
          if s.tsConnected && s.netCreated then { d with relayAttached := false } else d) ∧
        (Δ.filter (fun ev => isComp ev.phase && isEff ev.call)).map (fun ev => ev.call) =
          (if s.tsConnected && s.netCreated then
            [RCall.netDisconnect cfg.network_name cfg.tailnet_container] else [])) := by
  cases hg : s.tsConnected && s.netCreated with
  | false =>
      refine ⟨[], by simp [cleanupDisconnect, hg], by simp, by simp [cleanupDisconnect, hg],
        by simp [cleanupDisconnect, hg], ?_⟩
      intro _
      refine ⟨fun d => by simp, by simp⟩
  | true =>
      cases hokv : o.ok s.calls with
      | false =>
          refine ⟨[⟨Phase.comp, RCall.getContainer cfg.tailnet_container, false⟩], ?_, ?_, ?_,
            ?_, ?_⟩
          · simp [cleanupDisconnect, hg, compCall, hokv]
          · intro ev hev
            rcases List.mem_singleton.mp hev with rfl
            exact ⟨rfl, fun a h => RCall.noConfusion h⟩
          · simp [cleanupDisconnect, hg, compCall, hokv]
          · simp [cleanupDisconnect, hg, compCall, hokv]
          · intro hok
            have := hok _ (List.mem_singleton_self _)
            simp at this
      | true =>
          refine ⟨[⟨Phase.comp, RCall.getContainer cfg.tailnet_container, true⟩,
            ⟨Phase.comp, RCall.netDisconnect cfg.network_name cfg.tailnet_container,
              o.ok (s.calls + 1)⟩], ?_, ?_, ?_, ?_, ?_⟩
          · simp [cleanupDisconnect, hg, compCall, hokv]
          · intro ev hev
            rcases List.mem_cons.mp hev with rfl | hev
            · exact ⟨rfl, fun a h => RCall.noConfusion h⟩
            · rcases List.mem_singleton.mp hev with rfl
              exact ⟨rfl, fun a h => RCall.noConfusion h⟩
          · simp [cleanupDisconnect, hg, compCall, hokv]
          · simp [cleanupDisconnect, hg, compCall, hokv]
          · intro hok
            have hok2 := hok _ (List.mem_cons_of_mem _ (List.mem_singleton_self _))
            simp only at hok2
            constructor
            · intro d
              simp only [List.foldl_cons, List.foldl_nil, hok2]
              rw [show applyEvent d
                  ⟨Phase.comp, RCall.getContainer cfg.tailnet_container, true⟩ = d from rfl]
              rfl
            · simp [isComp, isEff]

theorem cleanupStops_spec (o : Oracle) : ∀ (l : List String) (s : FSt),
    ∃ Δ, (cleanupStops o l s).trace = s.trace ++ Δ ∧
      (∀ ev ∈ Δ, isComp ev.phase = true ∧ ∀ a, ev.call ≠ RCall.run a) ∧
      (cleanupStops o l s).created = s.created ∧
      (cleanupStops o l s).netCreated = s.netCreated ∧
      ((∀ ev ∈ Δ, ev.ok = true) →
        (∀ d : Daemon, Δ.foldl applyEvent d =
          { d with containers := l.foldl (fun cs n => (cs.erase n).erase n) d.containers }) ∧
        (Δ.filter (fun ev => isComp ev.phase && isEff ev.call)).map (fun ev => ev.call) =
          l.flatMap (fun n => [RCall.ctrStop n, RCall.ctrRemove n])) := by
  intro l
  induction l with
  | nil =>
      intro s
      refine ⟨[], by simp [cleanupStops], by simp, rfl, rfl, ?_⟩
      intro _
      exact ⟨fun d => by simp, by simp⟩
  | cons n rest ih =>
      intro s
      cases hokv : o.ok s.calls with
      | false =>
          have hred : cleanupStops o (n :: rest) s = cleanupStops o rest
              { s with
                calls := s.calls + 1
                trace := s.trace ++ [⟨Phase.comp, RCall.ctrStop n, false⟩] } := by
            simp [cleanupStops, compCall, hokv]
          obtain ⟨Δ', htr, hcomp', hcr, hnet, heff⟩ := ih
            { s with
              calls := s.calls + 1
              trace := s.trace ++ [⟨Phase.comp, RCall.ctrStop n, false⟩] }
          refine ⟨⟨Phase.comp, RCall.ctrStop n, false⟩ :: Δ', ?_, ?_, ?_, ?_, ?_⟩
          · rw [hred, htr]
            simp
          · intro ev hev
            rcases List.mem_cons.mp hev with rfl | hev
            · exact ⟨rfl, fun a h => RCall.noConfusion h⟩
            · exact hcomp' ev hev
          · rw [hred, hcr]
          · rw [hred, hnet]
          · intro hok
            have := hok _ (List.mem_cons_self _ _)
            simp at this
      | true =>
          have hred : cleanupStops o (n :: rest) s = cleanupStops o rest
              { s with
                calls := s.calls + 1 + 1
                trace := (s.trace ++ [⟨Phase.comp, RCall.ctrStop n, true⟩]) ++
                  [⟨Phase.comp, RCall.ctrRemove n, o.ok (s.calls + 1)⟩] } := by
            simp [cleanupStops, compCall, hokv]
          obtain ⟨Δ', htr, hcomp', hcr, hnet, heff⟩ := ih
            { s with
              calls := s.calls + 1 + 1
              trace := (s.trace ++ [⟨Phase.comp, RCall.ctrStop n, true⟩]) ++
                [⟨Phase.comp, RCall.ctrRemove n, o.ok (s.calls + 1)⟩] }
          refine ⟨⟨Phase.comp, RCall.ctrStop n, true⟩ ::
            ⟨Phase.comp, RCall.ctrRemove n, o.ok (s.calls + 1)⟩ :: Δ', ?_, ?_, ?_, ?_, ?_⟩
          · rw [hred, htr]
            simp
          · intro ev hev
            rcases List.mem_cons.mp hev with rfl | hev
            · exact ⟨rfl, fun a h => RCall.noConfusion h⟩
            · rcases List.mem_cons.mp hev with rfl | hev
              · exact ⟨rfl, fun a h => RCall.noConfusion h⟩
              · exact hcomp' ev hev
          · rw [hred, hcr]
          · rw [hred, hnet]
          · intro hok
            have hokr : o.ok (s.calls + 1) = true := by
              have := hok _ (List.mem_cons_of_mem _ (List.mem_cons_self _ _))
              simpa using this
            have hok' : ∀ ev ∈ Δ', ev.ok = true := by
              intro ev hev
              exact hok ev (List.mem_cons_of_mem _ (List.mem_cons_of_mem _ hev))
            obtain ⟨hfold, hmap⟩ := heff hok'
            constructor
            · intro d
              simp only [List.foldl_cons, hokr]
              rw [hfold]
              rfl
            · rw [hokr]
              show RCall.ctrStop n :: RCall.ctrRemove n ::
                  (Δ'.filter (fun ev => isComp ev.phase && isEff ev.call)).map
                    (fun ev => ev.call) =
                RCall.ctrStop n :: RCall.ctrRemove n ::
                  rest.flatMap (fun n => [RCall.ctrStop n, RCall.ctrRemove n])
              rw [hmap]

theorem cleanupNet_spec (cfg : GCfg) (o : Oracle) (s : FSt) :
    ∃ Δ, (cleanupNet cfg o s).trace = s.trace ++ Δ ∧
      (∀ ev ∈ Δ, isComp ev.phase = true ∧ ∀ a, ev.call ≠ RCall.run a) ∧
      ((∀ ev ∈ Δ, ev.ok = true) →
        (∀ d : Daemon, Δ.foldl applyEvent d =
          if s.netCreated then { d with networkExists := false } else d) ∧
        (Δ.filter (fun ev => isComp ev.phase && isEff ev.call)).map (fun ev => ev.call) =
          (if s.netCreated then [RCall.netRemove cfg.network_name] else [])) := by
  cases hg : s.netCreated with
  | false =>
      refine ⟨[], by simp [cleanupNet, hg], by simp, ?_⟩
      intro _
      exact ⟨fun d => by simp, by simp⟩
  | true =>
      refine ⟨[⟨Phase.comp, RCall.netRemove cfg.network_name, o.ok s.calls⟩], ?_, ?_, ?_⟩
      · simp [cleanupNet, hg, compCall]
      · intro ev hev
        rcases List.mem_singleton.mp hev with rfl
        exact ⟨rfl, fun a h => RCall.noConfusion h⟩
      · intro hok
        have hok1 : o.ok s.calls = true := by
          have := hok _ (List.mem_singleton_self _)
          simpa using this
        constructor
        · intro d
          simp only [List.foldl_cons, List.foldl_nil, hok1]
          rfl
        · simp [isComp, isEff]

theorem phase_of_isComp (ph : Phase) (h : isComp ph = true) : ph = Phase.comp := by
  cases ph
  · exact absurd h (by simp [isComp])
  · rfl

theorem cleanupGroup_trace (cfg : GCfg) (o : Oracle) (s : FSt)
    (hport : s.tsServePort = none) :
    ∃ Δ, (cleanupGroup cfg o s).trace = s.trace ++ Δ ∧
      (∀ ev ∈ Δ, isComp ev.phase = true ∧ ∀ a, ev.call ≠ RCall.run a) := by
  obtain ⟨Δ1, h1tr, h1c, h1cr, h1net, _⟩ := cleanupDisconnect_spec cfg o s
  obtain ⟨Δ2, h2tr, h2c, h2cr, h2net, _⟩ :=
    cleanupStops_spec o s.created (cleanupDisconnect cfg o s)
  obtain ⟨Δ3, h3tr, h3c, _⟩ :=
    cleanupNet_spec cfg o (cleanupStops o s.created (cleanupDisconnect cfg o s))
  refine ⟨Δ1 ++ Δ2 ++ Δ3, ?_, ?_⟩
  · show (cleanupNet cfg o (cleanupStops o s.created
        (cleanupDisconnect cfg o (cleanupServe cfg o s)))).trace = _
    rw [cleanupServe_of_port_none cfg o s hport, h3tr, h2tr, h1tr]
    simp [List.append_assoc]
  · intro ev hev
    rcases List.mem_append.mp hev with hev | hev
    · rcases List.mem_append.mp hev with hev | hev
      · exact h1c ev hev
      · exact h2c ev hev
    · exact h3c ev hev

theorem cleanupGroup_spec (cfg : GCfg) (o : Oracle) (s : FSt) (hInv : Inv s)
    (hcomp : ∀ ev ∈ (cleanupGroup cfg o s).trace, ev.phase = Phase.comp → ev.ok = true) :
    residual (cleanupGroup cfg o s).trace = emptyDaemon ∧
    compCalls (cleanupGroup cfg o s).trace =
      specCompensation (residual (fwdEvents (cleanupGroup cfg o s).trace))
        cfg.network_name cfg.tailnet_container cfg.host_port ∧
    fwdEvents (cleanupGroup cfg o s).trace = s.trace := by
  obtain ⟨hres, hport, himp, hfwd⟩ := hInv
  obtain ⟨Δ1, h1tr, h1c, h1cr, h1net, h1eff⟩ := cleanupDisconnect_spec cfg o s
  obtain ⟨Δ2, h2tr, h2c, h2cr, h2net, h2eff⟩ :=
    cleanupStops_spec o s.created (cleanupDisconnect cfg o s)
  obtain ⟨Δ3, h3tr, h3c, h3eff⟩ :=
    cleanupNet_spec cfg o (cleanupStops o s.created (cleanupDisconnect cfg o s))
  have hgt : (cleanupGroup cfg o s).trace = s.trace ++ (Δ1 ++ Δ2 ++ Δ3) := by
    show (cleanupNet cfg o (cleanupStops o s.created
        (cleanupDisconnect cfg o (cleanupServe cfg o s)))).trace = _
    rw [cleanupServe_of_port_none cfg o s hport, h3tr, h2tr, h1tr]
    simp [List.append_assoc]
  rw [hgt] at hcomp ⊢
  have hok1 : ∀ ev ∈ Δ1, ev.ok = true := by
    intro ev hev
    exact hcomp ev (List.mem_append_right _ (List.mem_append_left _
      (List.mem_append_left _ hev))) (phase_of_isComp _ (h1c ev hev).1)
  have hok2 : ∀ ev ∈ Δ2, ev.ok = true := by
    intro ev hev
    exact hcomp ev (List.mem_append_right _ (List.mem_append_left _
      (List.mem_append_right _ hev))) (phase_of_isComp _ (h2c ev hev).1)
  have hok3 : ∀ ev ∈ Δ3, ev.ok = true := by
    intro ev hev
    exact hcomp ev (List.mem_append_right _ (List.mem_append_right _ hev))
      (phase_of_isComp _ (h3c ev hev).1)
  obtain ⟨hfold1, hmap1⟩ := h1eff hok1
  obtain ⟨hfold2, hmap2⟩ := h2eff hok2
  obtain ⟨hfold3, hmap3⟩ := h3eff hok3
  have hnet3 : (cleanupStops o s.created (cleanupDisconnect cfg o s)).netCreated =
      s.netCreated := by rw [h2net, h1net]
  have hfwdΔ : fwdEvents (Δ1 ++ Δ2 ++ Δ3) = [] := by
    rw [fwdEvents_append, fwdEvents_append,
      fwdEvents_of_allcomp Δ1 (fun ev hev => (h1c ev hev).1),
      fwdEvents_of_allcomp Δ2 (fun ev hev => (h2c ev hev).1),
      fwdEvents_of_allcomp Δ3 (fun ev hev => (h3c ev hev).1)]
    rfl
  have hfwdFull : fwdEvents (s.trace ++ (Δ1 ++ Δ2 ++ Δ3)) = s.trace := by
    rw [fwdEvents_append, fwdEvents_of_allfwd s.trace hfwd, hfwdΔ, List.append_nil]
  have hd1 : Δ1.foldl applyEvent
      { networkExists := s.netCreated, containers := s.created,
        relayAttached := s.tsConnected, routeBound := false } =
      { networkExists := s.netCreated, containers := s.created,
        relayAttached := false, routeBound := false } := by
    rw [hfold1]
    cases hts : s.tsConnected with
    | true =>
        rw [himp hts]
        rfl
    | false => rfl
  have hd2 : Δ2.foldl applyEvent
      { networkExists := s.netCreated, containers := s.created,
        relayAttached := false, routeBound := false } =
      { networkExists := s.netCreated, containers := [],
        relayAttached := false, routeBound := false } := by
    rw [hfold2]
    simp only
    rw [doubleErase_self]
  have hd3 : Δ3.foldl applyEvent
      { networkExists := s.netCreated, containers := [],
        relayAttached := false, routeBound := false } = emptyDaemon := by
    rw [hfold3, hnet3]
    cases hnc : s.netCreated with
    | true => rfl
    | false => rfl
  refine ⟨?_, ?_, hfwdFull⟩
  · rw [residual_append, hres, List.foldl_append, List.foldl_append, hd1, hd2, hd3]
  · rw [compCalls_append, compCalls_of_allfwd s.trace hfwd, List.nil_append,
      compCalls_append, compCalls_append]
    unfold compCalls
    rw [hnet3] at hmap3
    rw [hmap1, hmap2, hmap3, hfwdFull, hres]
    unfold specCompensation
    simp only
    cases hts : s.tsConnected with
    | true =>
        rw [himp hts]
        simp [List.append_assoc]
    | false => simp [List.append_assoc]

theorem runArgsOf_mem (tr : List Event) (ra : RunArgs) (h : ra ∈ runArgsOf tr) :
    ∃ ev ∈ tr, ev.call = RCall.run ra := by
  unfold runArgsOf at h
  rw [List.mem_filterMap] at h
  obtain ⟨ev, hev, hsome⟩ := h
  refine ⟨ev, hev, ?_⟩
  cases hc : ev.call with
  | run a =>
      rw [hc] at hsome
      simp only [Option.some.injEq] at hsome
      rw [hsome]
  | netCreate n l => rw [hc] at hsome; simp at hsome
  | getContainer n => rw [hc] at hsome; simp at hsome
  | netConnect n c => rw [hc] at hsome; simp at hsome
  | execServe a b c d => rw [hc] at hsome; simp at hsome
  | execServeOff a => rw [hc] at hsome; simp at hsome
  | ctrStop n => rw [hc] at hsome; simp at hsome
  | ctrRemove n => rw [hc] at hsome; simp at hsome
  | netDisconnect n c => rw [hc] at hsome; simp at hsome
  | netRemove n => rw [hc] at hsome; simp at hsome

theorem group_run_shape (connected : Bool) (cfg : GCfg) (o : Oracle) :
    ∀ ra ∈ runArgsOf (create_container_group connected cfg o).2,
      ∃ c, ra = internalRunArgs cfg c ∨ ra = entryRunArgs cfg c := by
  intro ra hra
  cases connected with
  | false =>
      simp only [create_container_group, Bool.false_eq_true, if_false] at hra
      simp [runArgsOf] at hra
  | true =>
      rw [show create_container_group true cfg o =
        (match createGroupFwd cfg o with
          | .ok (h, s) => (.ok h, s.trace)
          | .error (e, s) => (.error e, (cleanupGroup cfg o s).trace)) from rfl] at hra
      cases hcg : createGroupFwd cfg o with
      | ok p =>
          obtain ⟨hd, s⟩ := p
          rw [hcg] at hra
          obtain ⟨hGR, _⟩ := createGroupFwd_ok_spec cfg o hd s hcg
          obtain ⟨ev, hev, hevc⟩ := runArgsOf_mem _ _ hra
          exact hGR ev hev ra hevc
      | error p =>
          obtain ⟨e, s⟩ := p
          rw [hcg] at hra
          obtain ⟨hInv, hGR⟩ := createGroupFwd_error_spec cfg o e s hcg
          obtain ⟨Δ, hΔtr, hΔ⟩ := cleanupGroup_trace cfg o s hInv.2.1
          have hra2 : ra ∈ runArgsOf (cleanupGroup cfg o s).trace := hra
          rw [hΔtr, runArgsOf_append,
            runArgsOf_eq_nil Δ (fun ev hev => (hΔ ev hev).2), List.append_nil] at hra2
          obtain ⟨ev, hev, hevc⟩ := runArgsOf_mem _ _ hra2
          exact hGR ev hev ra hevc

/-! # C9 — CPU quota conversion -/

/-- C9: in both creation paths every `containers.run` call carries the
pair `(cpu_quota, cpu_period)` with the period fixed at 100000 and the
quota equal to `int(cpu_limit * 100000)`; in particular a share of 1/2
gives quota 50000 and a share of 1 gives quota 100000. -/
theorem C9_cpu_quota :
    (∀ (a : CCArgs) (oc : RunOutcome),
      ((create_container true a oc).2).map (fun ra => (ra.cpu_quota, ra.cpu_period)) =
        some (pyInt (a.cpu_limit * 100000), 100000)) ∧
    (∀ (connected : Bool) (cfg : GCfg) (o : Oracle),
      (runArgsOf (create_container_group connected cfg o).2).all
        (fun ra => ra.cpu_quota == pyInt (cfg.cpu_limit * 100000) &&
          ra.cpu_period == 100000) = true) ∧
    pyInt ((1/2 : ℚ) * 100000) = 50000 ∧
    pyInt ((1 : ℚ) * 100000) = 100000 := by
  refine ⟨?_, ?_, ?_, ?_⟩
  · intro a oc
    cases oc <;>
      · show (some (ccRunArgs a)).map _ = _
        unfold ccRunArgs
        cases hb : pyTruthyStr a.network_mode <;> simp
  · intro connected cfg o
    rw [List.all_eq_true]
    intro ra hra
    obtain ⟨c, hc | hc⟩ := group_run_shape connected cfg o ra hra <;>
      · subst hc
        simp [internalRunArgs, entryRunArgs]
  · have h : ((1/2 : ℚ) * 100000) = 50000 := by norm_num
    rw [h]
    decide
  · have h : ((1 : ℚ) * 100000) = 100000 := by norm_num
    rw [h]
    decide

/-! # C4 — container hardening -/

/-- C4 counterexample: the two containers created by a concrete
`create_container_group` call are created with no `cap_drop`, no
`cap_add`, no `security_opt` and no `ctfd.managed` label at all,
contradicting the claim that every container created by this service is
hardened and tagged with the management label. -/
theorem C4_hardening_counterexample :
    (runArgsOf (create_container_group true (cfgPair false true) allOkOracle).2).map
      (fun ra => (ra.cap_drop, ra.cap_add, ra.security_opt,
        ra.labels.lookup "ctfd.managed")) =
    [(none, none, none, none), (none, none, none, none)] := by
  rfl

/-- C4 amended: containers created through `create_container` (both
branches) are hardened — `cap_drop` ALL, `cap_add` only CHOWN, SETUID
and SETGID, `no-new-privileges`, auto-remove — and labelled with
`ctfd.managed=true` and `ctfd.plugin=containers`; containers created
through `create_container_group` are auto-removed but receive no
capability drop, no capability add, no security option, and no
`ctfd.managed` label beyond what the caller labels already contain. -/
theorem C4_hardening_amended :
    (∀ (a : CCArgs) (oc : RunOutcome),
      ((create_container true a oc).2).map
        (fun ra => (ra.cap_drop, ra.cap_add, ra.security_opt, ra.auto_remove,
          ra.labels.lookup "ctfd.managed", ra.labels.lookup "ctfd.plugin")) =
      some (some ["ALL"], some ["CHOWN", "SETUID", "SETGID"],
        some ["no-new-privileges"], true, some "true", some "containers")) ∧
    (∀ (connected : Bool) (cfg : GCfg) (o : Oracle),
      (runArgsOf (create_container_group connected cfg o).2).all
        (fun ra => ra.cap_drop.isNone && ra.cap_add.isNone && ra.security_opt.isNone &&
          ra.auto_remove &&
          (ra.labels.lookup "ctfd.managed" ==
            (cfg.labels.getD []).lookup "ctfd.managed")) = true) := by
  constructor
  · intro a oc
    have hml : (containerLabels a).lookup "ctfd.managed" = some "true" := by
      unfold containerLabels
      rw [lookup_setKV_ne _ _ _ _ (by decide), lookup_setKV_self]
    have hpl : (containerLabels a).lookup "ctfd.plugin" = some "containers" :=
      lookup_setKV_self _ _ _
    cases oc <;>
      · show (some (ccRunArgs a)).map _ = _
        unfold ccRunArgs
        cases hb : pyTruthyStr a.network_mode <;> simp [hml, hpl]
  · intro connected cfg o
    rw [List.all_eq_true]
    intro ra hra
    obtain ⟨c, hc | hc⟩ := group_run_shape connected cfg o ra hra
    · subst hc
      have hl : List.lookup "ctfd.managed"
          (setKV (setKV (cfg.labels.getD []) "ctfd.compose_role" "internal")
            "ctfd.compose_name" c.name) =
          List.lookup "ctfd.managed" (cfg.labels.getD []) := by
        rw [lookup_setKV_ne _ _ _ _ (by decide), lookup_setKV_ne _ _ _ _ (by decide)]
      simp [internalRunArgs, hl]
    · subst hc
      have hl : List.lookup "ctfd.managed"
          (setKV (setKV (cfg.labels.getD []) "ctfd.compose_role" "entry")
            "ctfd.compose_name" c.name) =
          List.lookup "ctfd.managed" (cfg.labels.getD []) := by
        rw [lookup_setKV_ne _ _ _ _ (by decide), lookup_setKV_ne _ _ _ _ (by decide)]
      simp [entryRunArgs, hl]

/-! # C3 — entry uniqueness -/

/-- C3 counterexample: with zero `expose` entries the group creation does
raise, but only after the private network has already been created (the
first runtime call in the trace is the network creation); and with two
`expose` entries no validation error is raised at all — creation succeeds
using the first `expose` entry as the entry container. -/
theorem C3_entry_uniqueness_counterexample :
    (create_container_group true (cfgPair false false) allOkOracle).1 =
      Except.error GErr.noExpose ∧
    ((create_container_group true (cfgPair false false) allOkOracle).2.head?).map
      (fun ev => ev.call) =
      some (RCall.netCreate "net" [("ctfd.managed", "true"), ("ctfd.compose_group", "p")]) ∧
    (create_container_group true (cfgPair true true) allOkOracle).1 =
      Except.ok { container_ids := ["p-db", "p-web"]
                  entry_container_id := "p-web"
                  network_id := "net"
                  port := 30010 } :=
  ⟨rfl, rfl, rfl⟩

/-- C3 amended: when no entry of the group spec is marked `expose`,
`create_container_group` raises the missing-expose exception, but only
after the network-creation runtime call has been issued (it is the first
call of the trace; the network is then removed again by compensation);
and when one or more entries are marked `expose` no uniqueness validation
happens — on success the entry container is the first entry whose
`expose` is set. -/
theorem C3_entry_uniqueness_amended (cfg : GCfg) (o : Oracle)
    (h0 : o.ok 0 = true) :
    ((cfg.containers_config.all fun c => !c.expose) = true →
      (create_container_group true cfg o).1 = Except.error GErr.noExpose ∧
      ((create_container_group true cfg o).2.head?).map (fun ev => ev.call) =
        some (RCall.netCreate cfg.network_name (groupNetLabels cfg))) ∧
    (∀ hd : GroupHandle, (create_container_group true cfg o).1 = Except.ok hd →
      ∃ i, cfg.containers_config.findIdx? (fun c => c.expose) = some i ∧
        hd.entry_container_id = groupCName cfg (cfg.containers_config.getD i default)) := by
  constructor
  · intro hne
    have hfi : cfg.containers_config.findIdx? (fun c => c.expose) = none := by
      rw [List.findIdx?_eq_none_iff]
      intro x hx
      have hx2 := List.all_eq_true.mp hne x hx
      simpa using hx2
    have heq : createGroupFwd cfg o = .error (.noExpose,
        { calls := 1
          trace := [⟨Phase.fwd, RCall.netCreate cfg.network_name (groupNetLabels cfg), true⟩]
          created := []
          netCreated := true
          tsConnected := false
          tsServePort := none }) := by
      unfold createGroupFwd
      simp only [step, Nat.zero_add, List.nil_append, h0, hfi]
    have hcc : create_container_group true cfg o = (.error GErr.noExpose,
        (cleanupGroup cfg o
          { calls := 1
            trace := [⟨Phase.fwd, RCall.netCreate cfg.network_name (groupNetLabels cfg), true⟩]
            created := []
            netCreated := true
            tsConnected := false
            tsServePort := none }).trace) := by
      show (match createGroupFwd cfg o with
        | .ok (h, s) => ((.ok h : Except GErr GroupHandle), s.trace)
        | .error (e, s) => (.error e, (cleanupGroup cfg o s).trace)) = _
      rw [heq]
    obtain ⟨Δ, hΔtr, hΔ⟩ := cleanupGroup_trace cfg o
      { calls := 1
        trace := [⟨Phase.fwd, RCall.netCreate cfg.network_name (groupNetLabels cfg), true⟩]
        created := []
        netCreated := true
        tsConnected := false
        tsServePort := none } rfl
    constructor
    · rw [hcc]
    · rw [hcc]
      show ((cleanupGroup cfg o _).trace.head?).map _ = _
      rw [hΔtr]
      rfl
  · intro hd hok
    have hok2 : (match createGroupFwd cfg o with
        | .ok (h, s) => ((.ok h : Except GErr GroupHandle), s.trace)
        | .error (e, s) => (.error e, (cleanupGroup cfg o s).trace)).1 =
        Except.ok hd := hok
    cases hcg : createGroupFwd cfg o with
    | ok p =>
        obtain ⟨hd', s⟩ := p
        rw [hcg] at hok2
        simp only [Except.ok.injEq] at hok2
        rw [← hok2]
        exact (createGroupFwd_ok_spec cfg o hd' s hcg).2
    | error p =>
        obtain ⟨e, s⟩ := p
        rw [hcg] at hok2
        simp at hok2

/-- Witness for C3 amended at the two concrete group specs. -/
theorem C3_entry_uniqueness_witness :
    ((cfgPair false false).containers_config.all fun c => !c.expose) = true ∧
    (create_container_group true (cfgPair false false) allOkOracle).1 =
      Except.error GErr.noExpose ∧
    (∃ i, (cfgPair true true).containers_config.findIdx? (fun c => c.expose) = some i ∧
      ({ container_ids := ["p-db", "p-web"]
         entry_container_id := "p-web"
         network_id := "net"
         port := 30010 } : GroupHandle).entry_container_id =
        groupCName (cfgPair true true)
          ((cfgPair true true).containers_config.getD i default)) :=
  ⟨by decide,
    ((C3_entry_uniqueness_amended (cfgPair false false) allOkOracle rfl).1 (by decide)).1,
    (C3_entry_uniqueness_amended (cfgPair true true) allOkOracle rfl).2
      { container_ids := ["p-db", "p-web"]
        entry_container_id := "p-web"
        network_id := "net"
        port := 30010 } rfl⟩

/-! # C1 — compensation of failed group creation -/

/-- C1: when `create_container_group` fails, and the daemon lets every
compensation call succeed, the replayed trace leaves zero residual
resources (no network, no containers, relay detached, no tunnel route);
the state-changing compensation calls are exactly the
reverse-order sequence of the specification computed from the resources the
forward phase had created; and the error returned to the caller is the
forward-phase error itself, never an error of the cleanup. -/
theorem C1_group_compensation (cfg : GCfg) (o : Oracle) (e : GErr) (tr : List Event)
    (hrun : create_container_group true cfg o = (.error e, tr))
    (hcomp : ∀ ev ∈ tr, ev.phase = Phase.comp → ev.ok = true) :
    residual tr = emptyDaemon ∧
    compCalls tr = specCompensation (residual (fwdEvents tr)) cfg.network_name
      cfg.tailnet_container cfg.host_port ∧
    ∃ s, createGroupFwd cfg o = .error (e, s) := by
  have hrun2 : (match createGroupFwd cfg o with
      | .ok (h, s) => ((.ok h : Except GErr GroupHandle), s.trace)
      | .error (e, s) => (.error e, (cleanupGroup cfg o s).trace)) = (.error e, tr) := hrun
  cases hcg : createGroupFwd cfg o with
  | ok p =>
      obtain ⟨hd, s⟩ := p
      rw [hcg] at hrun2
      simp only [Prod.mk.injEq] at hrun2
      exact absurd hrun2.1 (by simp)
  | error p =>
      obtain ⟨e', s⟩ := p
      rw [hcg] at hrun2
      simp only [Prod.mk.injEq, Except.error.injEq] at hrun2
      obtain ⟨he, htr⟩ := hrun2
      subst he
      subst htr
      obtain ⟨hInv, _⟩ := createGroupFwd_error_spec cfg o e' s hcg
      obtain ⟨h1, h2, h3⟩ := cleanupGroup_spec cfg o s hInv hcomp
      exact ⟨h1, h2, s, rfl⟩

/-- Witness for C1: a concrete group creation failing at the entry
container (runtime call index 2), with all cleanup calls succeeding;
the theorem yields an empty residual state. -/
theorem C1_group_compensation_witness :
    (create_container_group true (cfgPair false true) (failAtOracle 2)).1 =
      Except.error (GErr.api 2) ∧
    residual (create_container_group true (cfgPair false true) (failAtOracle 2)).2 =
      emptyDaemon := by
  have h1 : (create_container_group true (cfgPair false true) (failAtOracle 2)).1 =
      Except.error (GErr.api 2) := rfl
  have heq : create_container_group true (cfgPair false true) (failAtOracle 2) =
      (Except.error (GErr.api 2),
        (create_container_group true (cfgPair false true) (failAtOracle 2)).2) := by
    rw [← h1]
  have hcomp : ∀ ev ∈ (create_container_group true (cfgPair false true)
      (failAtOracle 2)).2, ev.phase = Phase.comp → ev.ok = true := by decide
  exact ⟨h1,
    (C1_group_compensation (cfgPair false true) (failAtOracle 2) (GErr.api 2) _
      heq hcomp).1⟩

end CTFdDocker
